import Mathlib

/-!
Verification of the postcod.es build pipeline (Pipeline V3) against its
natural-language specification.

The development shallowly embeds the relevant parts of the Python source:

* `pipeline/util/normalise.py` — postcode canonicalisation helpers.
  Python strings are modelled as lists of Unicode code points (`List Nat`);
  `re.sub(r"[^A-Za-z0-9]", "", value)` keeps exactly the ASCII alphanumeric
  code points, and `.upper()` on the cleaned (ASCII-only) text is ASCII
  upper-casing.
* `pipeline/build/workflows.py` — bundle hashing and creation, staging
  country mapping, weight configuration, passes 3/6/8, verification and
  publication.  Database tables are modelled as lists of rows scoped to a
  single build run; SQL statements become list transformations that follow
  the statements' ORDER BY clauses.
* `pipeline/manifest.py` — build profiles and bundle manifests.

All definitions are executable; numeric SQL values (`numeric`) and Python
`Decimal`s are modelled as rationals, with rounding made explicit.
-/

namespace Postcodes

/-! ## Normalisation primitives (`pipeline/util/normalise.py`) -/

/-- Code point is one of `A`-`Z`, `a`-`z`, `0`-`9`: exactly the characters kept
by `re.sub(r"[^A-Za-z0-9]", "", value)`. -/
def isAsciiAlnum (c : Nat) : Bool :=
  (decide (65 ≤ c) && decide (c ≤ 90)) ||
  (decide (97 ≤ c) && decide (c ≤ 122)) ||
  (decide (48 ≤ c) && decide (c ≤ 57))

/-- ASCII upper-casing of one code point.  `str.upper()` is applied by the
source only to strings that contain ASCII alphanumerics alone, where Python's
Unicode upper-casing coincides with the ASCII rule. -/
def pyUpperChar (c : Nat) : Nat :=
  if 97 ≤ c ∧ c ≤ 122 then c - 32 else c

/-- The cleaned text of `postcode_norm`: strip every non-alphanumeric
character, then upper-case. -/
def normChars (s : List Nat) : List Nat :=
  (s.filter isAsciiAlnum).map pyUpperChar

/-- `postcode_norm` from `pipeline/util/normalise.py`: upper-case, strip every
non-alphanumeric character; `None` when the input is `None` or nothing
remains. -/
def postcode_norm (value : Option (List Nat)) : Option (List Nat) :=
  match value with
  | none => none
  | some s =>
      let cleaned := normChars s
      if cleaned = [] then none else some cleaned

/-- `postcode_display` from `pipeline/util/normalise.py`: the normalised form,
with a single space (code point 32) inserted before the last three characters
when longer than three characters. -/
def postcode_display (value : Option (List Nat)) : Option (List Nat) :=
  (postcode_norm value).map fun n =>
    if n.length ≤ 3 then n
    else n.take (n.length - 3) ++ 32 :: n.drop (n.length - 3)

/-- Code point is an upper-case ASCII letter or a digit. -/
def isUpperAlnum (c : Nat) : Bool :=
  (decide (65 ≤ c) && decide (c ≤ 90)) ||
  (decide (48 ≤ c) && decide (c ≤ 57))

end Postcodes

namespace Postcodes

/-! ## ONSPD country mapping (`_onspd_country_mapping`, workflows.py) -/

/-- Python whitespace for code points below 128, as stripped by `str.strip()`. -/
def isPySpace (c : Char) : Bool :=
  c.toNat = 9 || c.toNat = 10 || c.toNat = 11 || c.toNat = 12 || c.toNat = 13 ||
  c.toNat = 28 || c.toNat = 29 || c.toNat = 30 || c.toNat = 31 || c.toNat = 32

/-- ASCII upper-casing of a character, as `str.upper()` acts on ASCII text. -/
def upperCharAscii (c : Char) : Char :=
  if 97 ≤ c.toNat ∧ c.toNat ≤ 122 then Char.ofNat (c.toNat - 32) else c

/-- Model of `(value or "").strip().upper()` for ASCII text. -/
def pyStripUpper (value : Option String) : String :=
  let l := (value.getD "").data
  let stripped := ((l.dropWhile isPySpace).reverse.dropWhile isPySpace).reverse
  ⟨stripped.map upperCharAscii⟩

/-- `_onspd_country_mapping` from workflows.py: an exact-match dictionary over
the four ONS country codes, with `GB`/`GBR` and every other code falling
through to `("GB", "GBR", none)`. -/
def _onspd_country_mapping (value : Option String) : String × String × Option String :=
  let code := pyStripUpper value
  if code = "E92000001" then ("GB", "GBR", some "GB-ENG")
  else if code = "S92000003" then ("GB", "GBR", some "GB-SCT")
  else if code = "W92000004" then ("GB", "GBR", some "GB-WLS")
  else if code = "N92000002" then ("GB", "GBR", some "GB-NIR")
  else if code = "GB" ∨ code = "GBR" then ("GB", "GBR", none)
  else ("GB", "GBR", none)

/-! ## Frequency-weight configuration (`_weight_config`, workflows.py) -/

/-- `CANDIDATE_TYPES` from workflows.py: the eight canonical candidate types. -/
def CANDIDATE_TYPES : List String :=
  ["names_postcode_feature", "oli_toid_usrn", "uprn_usrn", "spatial_os_open_roads",
   "osni_gazetteer_direct", "spatial_dfi_highway", "ppd_parse_matched",
   "ppd_parse_unmatched"]

/-- `_weight_config` from workflows.py, applied to the parsed `weights` object
of the frequency-weights configuration (JSON numbers modelled as rationals).
The checks run in source order: missing canonical types, then non-positive
weights, then unknown keys; on success the weights are returned keyed in
`CANDIDATE_TYPES` order. -/
def _weight_config (weights : List (String × ℚ)) : Except String (List (String × ℚ)) :=
  if (CANDIDATE_TYPES.filter (fun t => (weights.lookup t).isNone)) ≠ [] then
    .error "frequency_weights missing candidate types"
  else if weights.any (fun p => p.2 ≤ 0) then
    .error "frequency weight must be > 0"
  else if (weights.filter (fun p => ¬ CANDIDATE_TYPES.contains p.1)) ≠ [] then
    .error "frequency_weights has unknown candidate types"
  else
    .ok (CANDIDATE_TYPES.filterMap (fun t => (weights.lookup t).map (fun w => (t, w))))

end Postcodes

namespace Postcodes

/-! ## Pass 8 — finalisation (`_pass_8_finalisation`, workflows.py)

SQL `numeric` values are modelled as rationals.  `ROUND(x, 4)` in Postgres and
`Decimal.quantize(Decimal("0.0001"), rounding=ROUND_HALF_UP)` in Python both
round half away from zero at four decimal places. -/

/-- Rounding half-up (ties towards `+∞`) at four decimal places. -/
def round4 (q : ℚ) : ℚ := (⌊q * 10000 + 1 / 2⌋ : ℤ) / 10000

/-- Rounding half away from zero at four decimal places: Postgres `ROUND(x, 4)`
and Python `Decimal.quantize(..., ROUND_HALF_UP)`. -/
def pgRound4 (q : ℚ) : ℚ := if 0 ≤ q then round4 q else -(round4 (-q))

/-- Decidable equality for `Except`, used to evaluate the embedded workflows
on concrete inputs. -/
instance {e a : Type} [DecidableEq e] [DecidableEq a] : DecidableEq (Except e a) := fun x y =>
  match x, y with
  | .error u, .error v =>
      if h : u = v then isTrue (congrArg Except.error h)
      else isFalse (fun hc => h (by cases hc; rfl))
  | .error _, .ok _ => isFalse (fun hc => by cases hc)
  | .ok _, .error _ => isFalse (fun hc => by cases hc)
  | .ok u, .ok v =>
      if h : u = v then isTrue (congrArg Except.ok h)
      else isFalse (fun hc => h (by cases hc; rfl))

/-- A rational is an integer multiple of `1 / 10000`: the values representable
by a 4-decimal `numeric`. -/
def IsQuant4 (q : ℚ) : Prop := ∃ n : ℤ, q = (n : ℚ) / 10000

/-- A row of `derived.postcode_street_candidates` for one build run.  The
`toid` field is the `'toid'` key of `evidence_json` when present. -/
structure Candidate where
  candidate_id : Nat
  postcode : String
  street_name_raw : String
  street_name_canonical : String
  usrn : Option Int
  candidate_type : String
  confidence : String
  evidence_ref : String
  source_name : String
  ingest_run_id : String
  toid : Option String
deriving DecidableEq

/-- The `CASE c.confidence ... END` conf-rank expression of pass 8. -/
def confRank (confidence : String) : Nat :=
  if confidence = "high" then 3
  else if confidence = "medium" then 2
  else if confidence = "low" then 1
  else 0

/-- `_confidence_from_rank` from workflows.py. -/
def _confidence_from_rank (r : Nat) : String :=
  if 3 ≤ r then "high"
  else if r = 2 then "medium"
  else if r = 1 then "low"
  else "none"

/-- A row of the session table `tmp_weighted_candidates`. -/
structure WCand where
  candidate_id : Nat
  postcode : String
  canonical_street_name : String
  usrn : Option Int
  source_name : String
  ingest_run_id : String
  candidate_type : String
  weight : ℚ
  conf_rank : Nat
deriving DecidableEq

/-- `CREATE TEMP TABLE tmp_weighted_candidates AS SELECT ...`: every candidate
joined with its weight (inner join on candidate type) and, via a left join on
`core.streets_usrn`, the coalesced canonical street name. -/
def weightedCandidates (wm : List (String × ℚ)) (streets : List (Int × String))
    (cands : List Candidate) : List WCand :=
  cands.filterMap fun c => (wm.lookup c.candidate_type).map fun w =>
    { candidate_id := c.candidate_id
      postcode := c.postcode
      canonical_street_name :=
        match c.usrn.bind (fun u => streets.lookup u) with
        | some s => s
        | none => c.street_name_canonical
      usrn := c.usrn
      source_name := c.source_name
      ingest_run_id := c.ingest_run_id
      candidate_type := c.candidate_type
      weight := w
      conf_rank := confRank c.confidence }

/-- SQL `MIN` over the non-null `usrn` values of a group (`MIN` ignores nulls,
and is null for an all-null group). -/
def minUsrn (l : List Int) : Option Int :=
  match l with
  | [] => none
  | x :: xs => some (xs.foldl min x)

/-- One row of the `grouped` CTE: aggregation over a `(postcode,
canonical_street_name)` group. -/
structure Group where
  postcode : String
  canonical_street_name : String
  usrn : Option Int
  weighted_score : ℚ
  conf_rank : Nat
deriving DecidableEq

/-- The weighted rows of one `(postcode, canonical_street_name)` group. -/
def rowsFor (wcs : List WCand) (pc sn : String) : List WCand :=
  wcs.filter (fun r => r.postcode = pc ∧ r.canonical_street_name = sn)

/-- The distinct canonical street names of a postcode. -/
def groupNames (wcs : List WCand) (pc : String) : List String :=
  ((wcs.filter (fun r => r.postcode = pc)).map (fun r => r.canonical_street_name)).dedup

/-- The `grouped` CTE row for one group: `MIN(usrn)`, `SUM(weight)`,
`MAX(conf_rank)`. -/
def mkGroup (wcs : List WCand) (pc sn : String) : Group :=
  let rows := rowsFor wcs pc sn
  { postcode := pc
    canonical_street_name := sn
    usrn := minUsrn (rows.filterMap (fun r => r.usrn))
    weighted_score := (rows.map (fun r => r.weight)).sum
    conf_rank := (rows.map (fun r => r.conf_rank)).foldr max 0 }

/-- The `grouped` CTE restricted to one postcode. -/
def groupsFor (wcs : List WCand) (pc : String) : List Group :=
  (groupNames wcs pc).map (mkGroup wcs pc)

/-- The `totals` CTE: per-postcode sum of the grouped `weighted_score`s. -/
def totalWeight (wcs : List WCand) (pc : String) : ℚ :=
  ((groupsFor wcs pc).map (fun g => g.weighted_score)).sum

/-- A row of the `scored` CTE: a group together with its raw probability
`weighted_score / total_weight`. -/
structure SGroup where
  g : Group
  raw_probability : ℚ
deriving DecidableEq

/-- The `scored` CTE restricted to one postcode. -/
def scoredGroups (wcs : List WCand) (pc : String) : List SGroup :=
  (groupsFor wcs pc).map (fun g => ⟨g, g.weighted_score / totalWeight wcs pc⟩)

/-- `usrn ASC NULLS LAST`. -/
def usrnLE : Option Int → Option Int → Bool
  | none, none => true
  | none, some _ => false
  | some _, none => true
  | some x, some y => decide (x ≤ y)

/-- The `ROW_NUMBER() OVER (... ORDER BY raw_probability DESC, conf_rank DESC,
canonical_street_name ASC, usrn ASC NULLS LAST)` ordering of pass 8. -/
def rankLE (a b : SGroup) : Bool :=
  if a.raw_probability = b.raw_probability then
    if a.g.conf_rank = b.g.conf_rank then
      if a.g.canonical_street_name = b.g.canonical_street_name then
        usrnLE a.g.usrn b.g.usrn
      else decide (a.g.canonical_street_name < b.g.canonical_street_name)
    else decide (b.g.conf_rank < a.g.conf_rank)
  else decide (b.raw_probability < a.raw_probability)

/-- The scored groups of one postcode in rank order (`rn` ascending). -/
def rankedGroups (wcs : List WCand) (pc : String) : List SGroup :=
  (scoredGroups wcs pc).mergeSort rankLE

/-- The per-postcode window sum `SUM(ROUND(raw_probability, 4)) OVER
(PARTITION BY postcode)`. -/
def roundedSumPg (wcs : List WCand) (pc : String) : ℚ :=
  ((scoredGroups wcs pc).map (fun sg => pgRound4 sg.raw_probability)).sum

/-- A row of `derived.postcode_streets_final`. -/
structure FinalRow where
  postcode : String
  street_name : String
  usrn : Option Int
  confidence : String
  frequency_score : ℚ
  probability : ℚ
deriving DecidableEq

/-- The Python insertion step for one selected row: quantised frequency score
and probability (both half-up at 4 decimals, the identity on the already
4-decimal SQL values). -/
def finalRowOf (sg : SGroup) (prob : ℚ) : FinalRow :=
  { postcode := sg.g.postcode
    street_name := sg.g.canonical_street_name
    usrn := sg.g.usrn
    confidence := _confidence_from_rank sg.g.conf_rank
    frequency_score := pgRound4 sg.g.weighted_score
    probability := pgRound4 prob }

/-- The final SELECT of pass 8 for one postcode, in `rn` order: the rank-1 row
receives `ROUND(rounded_probability + (1.0000 - rounded_sum), 4)`, every other
row its rounded probability. -/
def finalisePostcode (wcs : List WCand) (pc : String) : List FinalRow :=
  match rankedGroups wcs pc with
  | [] => []
  | r1 :: rest =>
      finalRowOf r1 (pgRound4 r1.raw_probability + (1 - roundedSumPg wcs pc)) ::
        rest.map (fun sg => finalRowOf sg (pgRound4 sg.raw_probability))

/-- String comparison under `COLLATE "C"`: code-point order. -/
def strLE (a b : String) : Bool := decide (a ≤ b)

/-- The distinct postcodes of the weighted candidates, in `COLLATE "C"`
ascending order (the outer `ORDER BY postcode, rn` of the final SELECT). -/
def postcodesOf (wcs : List WCand) : List String :=
  ((wcs.map (fun r => r.postcode)).dedup).mergeSort strLE

/-- All rows inserted into `derived.postcode_streets_final`, in insertion
order. -/
def finalOutput (wcs : List WCand) : List FinalRow :=
  (postcodesOf wcs).flatMap (finalisePostcode wcs)

/-- The per-postcode row-level weight total checked before finalisation. -/
def rowTotal (wcs : List WCand) (pc : String) : ℚ :=
  ((wcs.filter (fun r => r.postcode = pc)).map (fun r => r.weight)).sum

/-- `_pass_8_finalisation` from workflows.py, reduced to the data the claims
concern: load and validate the weight table, build the weighted candidates,
fail when any postcode has `total_weight ≤ 0`, otherwise produce the
`postcode_streets_final` rows. -/
def _pass_8_finalisation (weights : List (String × ℚ)) (streets : List (Int × String))
    (cands : List Candidate) : Except String (List FinalRow) :=
  match _weight_config weights with
  | .error e => .error e
  | .ok wm =>
      let wcs := weightedCandidates wm streets cands
      if (postcodesOf wcs).any (fun pc => decide (rowTotal wcs pc ≤ 0)) then
        .error "Finalisation failed: total_weight <= 0"
      else
        .ok (finalOutput wcs)

/-- The per-postcode sum of the raw probabilities rounded half-up, as the
specification words the window sum (raw probabilities are non-negative, where
half-up agrees with the source's half-away-from-zero). -/
def roundedSum4 (wcs : List WCand) (pc : String) : ℚ :=
  ((scoredGroups wcs pc).map (fun sg => round4 sg.raw_probability)).sum

/-- A weight table for the concrete witness scenario: all eight canonical
candidate types, positive weights. -/
def exampleWeights : List (String × ℚ) :=
  [("names_postcode_feature", 3), ("oli_toid_usrn", 1), ("uprn_usrn", 1),
   ("spatial_os_open_roads", 1), ("osni_gazetteer_direct", 1),
   ("spatial_dfi_highway", 1), ("ppd_parse_matched", 1), ("ppd_parse_unmatched", 1)]

/-- Two candidates for postcode `AA1 1AA` used by the witness scenario. -/
def exampleCands : List Candidate :=
  [{ candidate_id := 1, postcode := "AA1 1AA", street_name_raw := "Main Street",
     street_name_canonical := "MAIN STREET", usrn := none,
     candidate_type := "names_postcode_feature", confidence := "medium",
     evidence_ref := "open_names:feature:f1", source_name := "os_open_names",
     ingest_run_id := "run-1", toid := none },
   { candidate_id := 2, postcode := "AA1 1AA", street_name_raw := "High Road",
     street_name_canonical := "HIGH ROAD", usrn := none,
     candidate_type := "uprn_usrn", confidence := "high",
     evidence_ref := "oli:uprn_usrn:2_uprns", source_name := "os_open_lids",
     ingest_run_id := "run-2", toid := none }]

end Postcodes

namespace Postcodes

/-! ## SHA-256 over byte lists (`hashlib.sha256`), words as `Nat` mod `2 ^ 32` -/

/-- Truncation to a 32-bit word. -/
def w32 (n : Nat) : Nat := n % 4294967296

/-- Right rotation of a 32-bit word. -/
def rotr32 (x n : Nat) : Nat := w32 ((x >>> n) ||| (x <<< (32 - n)))

/-- The 64 SHA-256 round constants. -/
def sha_k : List Nat :=
  [   1116352408, 1899447441, 3049323471, 3921009573, 961987163, 1508970993,
   2453635748, 2870763221, 3624381080, 310598401, 607225278, 1426881987,
   1925078388, 2162078206, 2614888103, 3248222580, 3835390401, 4022224774,
   264347078, 604807628, 770255983, 1249150122, 1555081692, 1996064986,
   2554220882, 2821834349, 2952996808, 3210313671, 3336571891, 3584528711,
   113926993, 338241895, 666307205, 773529912, 1294757372, 1396182291,
   1695183700, 1986661051, 2177026350, 2456956037, 2730485921, 2820302411,
   3259730800, 3345764771, 3516065817, 3600352804, 4094571909, 275423344,
   430227734, 506948616, 659060556, 883997877, 958139571, 1322822218,
   1537002063, 1747873779, 1955562222, 2024104815, 2227730452, 2361852424,
   2428436474, 2756734187, 3204031479, 3329325298]

/-- The SHA-256 initial hash state. -/
structure Sha256State where
  a : Nat
  b : Nat
  c : Nat
  d : Nat
  e : Nat
  f : Nat
  g : Nat
  h : Nat

/-- The SHA-256 initialisation vector. -/
def sha256Init : Sha256State :=
  ⟨1779033703, 3144134277, 1013904242, 2773480762, 1359893119, 2600822924, 528734635, 1541459225⟩

/-- Big-endian byte expansion of `v` into `n` bytes. -/
def beBytes (n v : Nat) : List Nat :=
  (List.range n).map (fun i => (v >>> (8 * (n - 1 - i))) % 256)

/-- SHA-256 message padding: `0x80`, zeros to 56 mod 64, then the bit length
as eight big-endian bytes. -/
def padMessage (ms : List Nat) : List Nat :=
  ms ++ 128 :: List.replicate ((64 + 55 - ms.length % 64) % 64) 0 ++
    beBytes 8 (ms.length * 8)

/-- Split a byte list into 64-byte blocks. -/
def chunks64 (l : List Nat) : List (List Nat) :=
  if h : l = [] then []
  else l.take 64 :: chunks64 (l.drop 64)
termination_by l.length
decreasing_by
  have hp : 0 < l.length := List.length_pos.2 h
  simp only [List.length_drop]
  omega

/-- The `i`-th big-endian 32-bit word of a block. -/
def beWord (block : List Nat) (i : Nat) : Nat :=
  block.getD (4 * i) 0 * 16777216 + block.getD (4 * i + 1) 0 * 65536 +
    block.getD (4 * i + 2) 0 * 256 + block.getD (4 * i + 3) 0

/-- The 64-word SHA-256 message schedule of one block. -/
def msgSchedule (block : List Nat) : Array Nat :=
  let init : Array Nat := ((List.range 16).map (beWord block)).toArray
  (List.range 48).foldl
    (fun ws j =>
      let i := j + 16
      let x15 := ws.getD (i - 15) 0
      let x2 := ws.getD (i - 2) 0
      let s0 := rotr32 x15 7 ^^^ rotr32 x15 18 ^^^ (x15 >>> 3)
      let s1 := rotr32 x2 17 ^^^ rotr32 x2 19 ^^^ (x2 >>> 10)
      ws.push (w32 (ws.getD (i - 16) 0 + s0 + ws.getD (i - 7) 0 + s1)))
    init

/-- One SHA-256 compression round. -/
def compressRound (ws : Array Nat) (st : Sha256State) (i : Nat) : Sha256State :=
  let s1 := rotr32 st.e 6 ^^^ rotr32 st.e 11 ^^^ rotr32 st.e 25
  let ch := (st.e &&& st.f) ^^^ ((4294967295 - st.e) &&& st.g)
  let temp1 := w32 (st.h + s1 + ch + sha_k.getD i 0 + ws.getD i 0)
  let s0 := rotr32 st.a 2 ^^^ rotr32 st.a 13 ^^^ rotr32 st.a 22
  let maj := (st.a &&& st.b) ^^^ (st.a &&& st.c) ^^^ (st.b &&& st.c)
  let temp2 := w32 (s0 + maj)
  ⟨w32 (temp1 + temp2), st.a, st.b, st.c, w32 (st.d + temp1), st.e, st.f, st.g⟩

/-- SHA-256 compression of one 64-byte block into the running state. -/
def compressBlock (hs : Sha256State) (block : List Nat) : Sha256State :=
  let ws := msgSchedule block
  let fin := (List.range 64).foldl (compressRound ws) hs
  ⟨w32 (hs.a + fin.a), w32 (hs.b + fin.b), w32 (hs.c + fin.c), w32 (hs.d + fin.d),
   w32 (hs.e + fin.e), w32 (hs.f + fin.f), w32 (hs.g + fin.g), w32 (hs.h + fin.h)⟩

/-- SHA-256 digest (32 bytes) of a byte list. -/
def sha256 (ms : List Nat) : List Nat :=
  let fin := (chunks64 (padMessage ms)).foldl compressBlock sha256Init
  beBytes 4 fin.a ++ beBytes 4 fin.b ++ beBytes 4 fin.c ++ beBytes 4 fin.d ++
    beBytes 4 fin.e ++ beBytes 4 fin.f ++ beBytes 4 fin.g ++ beBytes 4 fin.h

/-- A lowercase hexadecimal digit. -/
def hexDigit (n : Nat) : Char := "0123456789abcdef".data.getD n 'x'

/-- Lowercase hexadecimal rendering of a byte list. -/
def bytesToHex (bs : List Nat) : String :=
  ⟨bs.flatMap (fun b => [hexDigit (b / 16), hexDigit (b % 16)])⟩

/-- `hashlib.sha256(data).hexdigest()`. -/
def sha256hex (ms : List Nat) : String := bytesToHex (sha256 ms)

/-! ## JSON encoding (`json.dumps(..., separators=(",", ":"), ensure_ascii=True)`) -/

/-- Four lowercase hex digits. -/
def hex4 (n : Nat) : String :=
  ⟨[hexDigit (n / 4096 % 16), hexDigit (n / 256 % 16), hexDigit (n / 16 % 16),
    hexDigit (n % 16)]⟩

/-- The ASCII-safe escaping of one character, as Python's
`json.encoder.py_encode_basestring_ascii`: `"` and `\` are escaped, characters
outside `0x20`-`0x7e` take their short escapes or `\uXXXX` (surrogate pairs
above `0xFFFF`), everything else stands for itself. -/
def jsonEscapeChar (c : Char) : String :=
  if c = '"' then "\\\""
  else if c.toNat = 92 then "\\\\"
  else if c.toNat = 10 then "\\n"
  else if c.toNat = 13 then "\\r"
  else if c.toNat = 9 then "\\t"
  else if c.toNat = 8 then "\\b"
  else if c.toNat = 12 then "\\f"
  else if 32 ≤ c.toNat ∧ c.toNat ≤ 126 then String.singleton c
  else if c.toNat < 65536 then "\\u" ++ hex4 c.toNat
  else
    "\\u" ++ hex4 (55296 + (c.toNat - 65536) / 1024) ++
      "\\u" ++ hex4 (56320 + (c.toNat - 65536) % 1024)

/-- A JSON string literal under compact, ASCII-safe encoding. -/
def jsonString (s : String) : String :=
  "\"" ++ String.join (s.data.map jsonEscapeChar) ++ "\""

/-- A JSON array of strings under compact separators. -/
def jsonStringList (l : List String) : String :=
  "[" ++ String.intercalate "," (l.map jsonString) ++ "]"

/-- `sorted(...)` over strings: Python compares by code point, as does the
`String` linear order. -/
def sortStrings (l : List String) : List String :=
  l.mergeSort (fun a b => decide (a ≤ b))

/-- UTF-8 encoding of one character. -/
def utf8Char (c : Char) : List Nat :=
  let n := c.toNat
  if n < 128 then [n]
  else if n < 2048 then [192 ||| (n >>> 6), 128 ||| (n &&& 63)]
  else if n < 65536 then
    [224 ||| (n >>> 12), 128 ||| ((n >>> 6) &&& 63), 128 ||| (n &&& 63)]
  else
    [240 ||| (n >>> 18), 128 ||| ((n >>> 12) &&& 63), 128 ||| ((n >>> 6) &&& 63),
     128 ||| (n &&& 63)]

/-- `str.encode("utf-8")`. -/
def utf8Bytes (s : String) : List Nat := s.data.flatMap utf8Char

/-! ## Bundle hashing (`_bundle_hash`, workflows.py) -/

/-- The JSON payload of `_bundle_hash` as the source builds it: each run list
sorted, then a dict keyed in sorted order, serialised with compact separators
and ASCII-safe escaping, `build_profile` before `source_runs`. -/
def bundleHashPayload (build_profile : String)
    (source_runs : List (String × List String)) : String :=
  let normalized := source_runs.map (fun kv => (kv.1, sortStrings kv.2))
  let sortedKeys := sortStrings (normalized.map Prod.fst)
  "\x7b" ++ jsonString "build_profile" ++ ":" ++ jsonString build_profile ++ "," ++
    jsonString "source_runs" ++ ":\x7b" ++
    String.intercalate ","
      (sortedKeys.map (fun k =>
        jsonString k ++ ":" ++ jsonStringList ((normalized.lookup k).getD []))) ++
    "\x7d\x7d"

/-- `_bundle_hash` from workflows.py. -/
def _bundle_hash (build_profile : String)
    (source_runs : List (String × List String)) : String :=
  sha256hex (utf8Bytes (bundleHashPayload build_profile source_runs))

/-- Modelled from the spec's words (for the refinement half of the bundle-hash
claim): the compact ASCII JSON encoding of `{build_profile, source_runs:
{source → sorted run_ids}}` with keys in lexicographic order. -/
def specCanonicalManifestJson (build_profile : String)
    (source_runs : List (String × List String)) : String :=
  "\x7b" ++ jsonString "build_profile" ++ ":" ++ jsonString build_profile ++ "," ++
    jsonString "source_runs" ++ ":\x7b" ++
    String.intercalate ","
      ((sortStrings (source_runs.map Prod.fst)).map (fun k =>
        jsonString k ++ ":" ++
          jsonStringList (sortStrings ((source_runs.lookup k).getD [])))) ++
    "\x7d\x7d"

end Postcodes

namespace Postcodes

/-! ## Bundle creation (`create_build_bundle`, workflows.py; `manifest.py`) -/

/-- A row of `meta.ingest_run` (the fields the bundle workflow reads). -/
structure IngestRunRow where
  run_id : String
  source_name : String
deriving DecidableEq

/-- A row of `meta.build_bundle`. -/
structure BundleRow where
  bundle_id : String
  build_profile : String
  bundle_hash : String
  status : String
deriving DecidableEq

/-- A row of `meta.build_bundle_source`. -/
structure BundleSourceRow where
  bundle_id : String
  source_name : String
  ingest_run_id : String
deriving DecidableEq

/-- The metadata tables touched by bundle creation. -/
structure MetaDb where
  build_bundle : List BundleRow
  build_bundle_source : List BundleSourceRow
  ingest_run : List IngestRunRow
deriving DecidableEq

/-- `BUILD_PROFILES` from manifest.py: required source slots per profile. -/
def BUILD_PROFILES : List (String × List String) :=
  [("gb_core",
    ["onspd", "os_open_usrn", "os_open_names", "os_open_roads", "os_open_uprn",
     "os_open_lids", "nsul"]),
   ("gb_core_ppd",
    ["onspd", "os_open_usrn", "os_open_names", "os_open_roads", "os_open_uprn",
     "os_open_lids", "nsul", "ppd"]),
   ("core_ni",
    ["onspd", "os_open_usrn", "os_open_names", "os_open_roads", "os_open_uprn",
     "os_open_lids", "nsul", "osni_gazetteer", "dfi_highway"])]

/-- A parsed bundle manifest (`BuildBundleManifest` from manifest.py). -/
structure BuildBundleManifest where
  build_profile : String
  source_runs : List (String × List String)
deriving DecidableEq

/-- The result record of `create_build_bundle`. -/
structure BuildBundleResult where
  bundle_id : String
  status : String
  bundle_hash : String
deriving DecidableEq

/-- The per-run validation loop of `create_build_bundle`: each run id must
exist in `meta.ingest_run` and carry the slot's source name. -/
def validateRuns (db : MetaDb) (source_name : String) : List String → Option String
  | [] => none
  | r :: rest =>
      match db.ingest_run.find? (fun ir => ir.run_id = r) with
      | none => some ("Unknown ingest_run_id for source " ++ source_name ++ ": " ++ r)
      | some ir =>
          if ir.source_name ≠ source_name then
            some ("Ingest run/source mismatch: source=" ++ source_name ++ " run_id=" ++ r)
          else validateRuns db source_name rest

/-- The per-source validation of `create_build_bundle`: run-cardinality rules
(`ppd ≥ 1`, all others `= 1`), then each listed run. -/
def validateSource (db : MetaDb) (source_name : String) (run_ids : List String) :
    Option String :=
  let card : Option String :=
    if source_name = "ppd" then
      if run_ids.length = 0 then some "Bundle must include at least one ppd ingest run"
      else none
    else
      if run_ids.length ≠ 1 then
        some ("Source " ++ source_name ++ " must map to exactly one ingest run in a bundle")
      else none
  match card with
  | some e => some e
  | none => validateRuns db source_name run_ids

/-- `create_build_bundle` from workflows.py.  `freshId` stands for the
`uuid.uuid4()` drawn for a new bundle; an exception is an `Except.error`, under
which the surrounding transaction leaves the database unchanged. -/
def create_build_bundle (db : MetaDb) (freshId : String) (m : BuildBundleManifest) :
    Except String (MetaDb × BuildBundleResult) :=
  let bhash := _bundle_hash m.build_profile m.source_runs
  match db.build_bundle.find? (fun b =>
      b.build_profile = m.build_profile ∧ b.bundle_hash = bhash) with
  | some row => .ok (db, ⟨row.bundle_id, "existing", bhash⟩)
  | none =>
      match BUILD_PROFILES.lookup m.build_profile with
      | none => .error "KeyError: unknown build profile"
      | some required =>
          if (sortStrings required).filter
              (fun s => (m.source_runs.lookup s).isNone) ≠ [] then
            .error "Bundle manifest missing required sources"
          else
            match (sortStrings required).findSome?
                (fun s => validateSource db s ((m.source_runs.lookup s).getD [])) with
            | some e => .error e
            | none =>
                .ok
                  ({ db with
                      build_bundle :=
                        db.build_bundle ++ [⟨freshId, m.build_profile, bhash, "created"⟩]
                      build_bundle_source :=
                        db.build_bundle_source ++
                          m.source_runs.flatMap (fun kv =>
                            kv.2.map (fun rid => BundleSourceRow.mk freshId kv.1 rid)) },
                    ⟨freshId, "created", bhash⟩)

end Postcodes

namespace Postcodes

/-! ## Concrete bundle-creation scenarios for witnesses -/

/-- Whether an `Except` result is a success. -/
def exceptIsOk {a : Type} : Except String a → Bool
  | .ok _ => true
  | .error _ => false

/-- Ingest metadata holding one run per `gb_core` source. -/
def exMetaDb : MetaDb :=
  ⟨[], [],
   [⟨"r-onspd", "onspd"⟩, ⟨"r-usrn", "os_open_usrn"⟩, ⟨"r-names", "os_open_names"⟩,
    ⟨"r-roads", "os_open_roads"⟩, ⟨"r-uprn", "os_open_uprn"⟩,
    ⟨"r-lids", "os_open_lids"⟩, ⟨"r-nsul", "nsul"⟩]⟩

/-- A complete, valid `gb_core` source-run mapping over `exMetaDb`. -/
def exSourceRuns : List (String × List String) :=
  [("onspd", ["r-onspd"]), ("os_open_usrn", ["r-usrn"]),
   ("os_open_names", ["r-names"]), ("os_open_roads", ["r-roads"]),
   ("os_open_uprn", ["r-uprn"]), ("os_open_lids", ["r-lids"]),
   ("nsul", ["r-nsul"])]

/-- A valid `gb_core` manifest over `exMetaDb`. -/
def exManifest : BuildBundleManifest := ⟨"gb_core", exSourceRuns⟩

/-- The `exManifest` mapping extended with a `ppd` slot (a source known to the
manifest schema but not required by `gb_core`) holding an ingest run id absent
from `exMetaDb`. -/
def exManifestExtra : BuildBundleManifest :=
  ⟨"gb_core", exSourceRuns ++ [("ppd", ["bad-run"])]⟩

/-- The `exManifest` mapping with the required `onspd` slot pointing at an
ingest run id absent from `exMetaDb`. -/
def exManifestBadRequired : BuildBundleManifest :=
  ⟨"gb_core",
   [("onspd", ["bad-run"]), ("os_open_usrn", ["r-usrn"]),
    ("os_open_names", ["r-names"]), ("os_open_roads", ["r-roads"]),
    ("os_open_uprn", ["r-uprn"]), ("os_open_lids", ["r-lids"]),
    ("nsul", ["r-nsul"])]⟩

end Postcodes

namespace Postcodes

/-! ## Pass 3 — Open Names candidates (`_pass_3_open_names_candidates`) -/

/-- A row of `stage.open_names_road_feature`. -/
structure OpenNamesRow where
  feature_id : String
  postcode_norm : Option String
  street_name_raw : String
  street_name_casefolded : String
  toid : Option String
  ingest_run_id : String
deriving DecidableEq

/-- A row of `stage.oli_toid_usrn`. -/
structure OliToidUsrnRow where
  toid : String
  usrn : Int
  ingest_run_id : String
deriving DecidableEq

/-- A row of `core.postcodes` (the fields passes 3 and 6 read). -/
structure PostcodeRow where
  postcode : String
  subdivision_code : Option String
deriving DecidableEq

/-- The candidate graph of one build run: the serial `candidate_id` counter,
`derived.postcode_street_candidates` and
`derived.postcode_street_candidate_lineage` (edges as
`(parent_candidate_id, child_candidate_id, relation_type)`). -/
structure CandidateDb where
  nextId : Nat
  candidates : List Candidate
  lineage : List (Nat × Nat × String)
deriving DecidableEq

/-- `replace(p.postcode, ' ', '')`. -/
def stripSpaces (s : String) : String := ⟨s.data.filter (fun c => c ≠ ' ')⟩

/-- The base candidate inserted by pass 3 phase (a) for one joined
`(feature, postcode)` row. -/
def pass3BaseCand (np : OpenNamesRow × PostcodeRow) (cid : Nat) : Candidate :=
  { candidate_id := cid
    postcode := np.2.postcode
    street_name_raw := np.1.street_name_raw
    street_name_canonical := np.1.street_name_casefolded
    usrn := none
    candidate_type := "names_postcode_feature"
    confidence := "medium"
    evidence_ref := "open_names:feature:" ++ np.1.feature_id
    source_name := "os_open_names"
    ingest_run_id := np.1.ingest_run_id
    toid := np.1.toid }

/-- Pass 3 phase (a): insert one `names_postcode_feature` candidate per
`(feature, canonical postcode)` join row, ordered by `feature_id`; serial ids
continue from `nextId`. -/
def pass3Base (postcodes : List PostcodeRow) (names : List OpenNamesRow)
    (st : CandidateDb) : CandidateDb :=
  let rows :=
    (names.mergeSort (fun a b => decide (a.feature_id ≤ b.feature_id))).flatMap
      (fun n => (postcodes.filter
        (fun p => n.postcode_norm = some (stripSpaces p.postcode))).map (fun p => (n, p)))
  { nextId := st.nextId + rows.length
    candidates := st.candidates ++ rows.enum.map (fun ir => pass3BaseCand ir.2 (st.nextId + ir.1))
    lineage := st.lineage }

/-- The promoted candidate inserted by pass 3 phase (b) for one
`(parent, oli row)` pair. -/
def pass3Child (po : Candidate × OliToidUsrnRow) (cid : Nat) : Candidate :=
  { candidate_id := cid
    postcode := po.1.postcode
    street_name_raw := po.1.street_name_raw
    street_name_canonical := po.1.street_name_canonical
    usrn := some po.2.usrn
    candidate_type := "oli_toid_usrn"
    confidence := "high"
    evidence_ref := "oli:toid_usrn:" ++ (po.1.toid.getD "")
    source_name := "os_open_lids"
    ingest_run_id := po.2.ingest_run_id
    toid := po.1.toid }

/-- The promotion join of pass 3 phase (b): every `names_postcode_feature`
candidate whose evidence carries a TOID, joined with the matching
`oli_toid_usrn` rows, ordered by `(candidate_id, usrn)`. -/
def pass3PromotionRows (oli : List OliToidUsrnRow) (st1 : CandidateDb) :
    List (Candidate × OliToidUsrnRow) :=
  ((st1.candidates.filter (fun c =>
      c.candidate_type = "names_postcode_feature" ∧ c.toid.isSome)).mergeSort
    (fun a b => decide (a.candidate_id ≤ b.candidate_id))).flatMap
    (fun par =>
      ((oli.filter (fun o => some o.toid = par.toid)).mergeSort
        (fun a b => decide (a.usrn ≤ b.usrn))).map (fun o => (par, o)))

/-- `_pass_3_open_names_candidates` from workflows.py: phase (a) inserts the
base candidates; phase (b) appends one new candidate and one lineage edge per
promotion row, never touching existing rows. -/
def _pass_3_open_names_candidates (postcodes : List PostcodeRow)
    (names : List OpenNamesRow) (oli : List OliToidUsrnRow)
    (st : CandidateDb) : CandidateDb :=
  let st1 := pass3Base postcodes names st
  let prom := pass3PromotionRows oli st1
  { nextId := st1.nextId + prom.length
    candidates := st1.candidates ++ prom.enum.map (fun ip => pass3Child ip.2 (st1.nextId + ip.1))
    lineage := st1.lineage ++ prom.enum.map (fun ip =>
      (ip.2.1.candidate_id, st1.nextId + ip.1, "promotion_toid_usrn")) }

end Postcodes

namespace Postcodes

/-! ## Pass 6 — NI candidates (`_pass_6_ni_candidates`, workflows.py) -/

/-- A row of `stage.osni_street_point`. -/
structure OsniRow where
  feature_id : String
  postcode_norm : Option String
  street_name_raw : String
  street_name_casefolded : String
  ingest_run_id : String
deriving DecidableEq

/-- A row of `stage.dfi_road_segment`. -/
structure DfiRow where
  segment_id : String
  postcode_norm : Option String
  street_name_raw : String
  street_name_casefolded : String
  ingest_run_id : String
deriving DecidableEq

/-- The direct OSNI candidate for one joined `(feature, postcode)` row. -/
def pass6DirectCand (np : OsniRow × PostcodeRow) (cid : Nat) : Candidate :=
  { candidate_id := cid
    postcode := np.2.postcode
    street_name_raw := np.1.street_name_raw
    street_name_canonical := np.1.street_name_casefolded
    usrn := none
    candidate_type := "osni_gazetteer_direct"
    confidence := "medium"
    evidence_ref := "osni_gazetteer:feature:" ++ np.1.feature_id
    source_name := "osni_gazetteer"
    ingest_run_id := np.1.ingest_run_id
    toid := none }

/-- Pass 6 first statement: `osni_gazetteer_direct` candidates for `GB-NIR`
postcodes, ordered by `feature_id`. -/
def pass6Direct (postcodes : List PostcodeRow) (osni : List OsniRow)
    (st : CandidateDb) : CandidateDb :=
  let rows :=
    (osni.mergeSort (fun a b => decide (a.feature_id ≤ b.feature_id))).flatMap
      (fun n => (postcodes.filter (fun p =>
        n.postcode_norm = some (stripSpaces p.postcode) ∧
        p.subdivision_code = some "GB-NIR")).map (fun p => (n, p)))
  { nextId := st.nextId + rows.length
    candidates := st.candidates ++ rows.enum.map (fun ir => pass6DirectCand ir.2 (st.nextId + ir.1))
    lineage := st.lineage }

/-- The `ni_without_candidates` CTE joined with the rank-1 `dfi_road_segment`:
for each distinct `GB-NIR` postcode with no candidate at all, the matching DFI
row with the lowest `segment_id`, in postcode order. -/
def pass6FallbackRows (postcodes : List PostcodeRow) (dfi : List DfiRow)
    (st1 : CandidateDb) : List (String × DfiRow) :=
  let niPcs :=
    ((postcodes.filter (fun p =>
      p.subdivision_code = some "GB-NIR" ∧
      st1.candidates.all (fun c => c.postcode ≠ p.postcode))).map
        (fun p => p.postcode)).dedup
  (niPcs.mergeSort (fun a b => decide (a ≤ b))).filterMap (fun pc =>
    ((dfi.filter (fun d => d.postcode_norm = some (stripSpaces pc))).mergeSort
      (fun a b => decide (a.segment_id ≤ b.segment_id))).head?.map (fun d => (pc, d)))

/-- The DFI fallback candidate for one `(postcode, segment)` pair. -/
def pass6FallbackCand (pd : String × DfiRow) (cid : Nat) : Candidate :=
  { candidate_id := cid
    postcode := pd.1
    street_name_raw := pd.2.street_name_raw
    street_name_canonical := pd.2.street_name_casefolded
    usrn := none
    candidate_type := "spatial_dfi_highway"
    confidence := "low"
    evidence_ref := "spatial:dfi_highway:" ++ pd.2.segment_id ++ ":fallback"
    source_name := "dfi_highway"
    ingest_run_id := pd.2.ingest_run_id
    toid := none }

/-- `_pass_6_ni_candidates` from workflows.py: the direct OSNI insert followed
by the DFI fallback insert, whose NOT-EXISTS filter reads the candidate table
as left by the direct insert. -/
def _pass_6_ni_candidates (postcodes : List PostcodeRow) (osni : List OsniRow)
    (dfi : List DfiRow) (st : CandidateDb) : CandidateDb :=
  let st1 := pass6Direct postcodes osni st
  let fb := pass6FallbackRows postcodes dfi st1
  { nextId := st1.nextId + fb.length
    candidates := st1.candidates ++ fb.enum.map (fun ip => pass6FallbackCand ip.2 (st1.nextId + ip.1))
    lineage := st1.lineage }

end Postcodes

namespace Postcodes

/-! ## Concrete pass-6 scenario for the witness -/

/-- Two `GB-NIR` postcodes. -/
def exNiPostcodes : List PostcodeRow :=
  [⟨"BT1 1AA", some "GB-NIR"⟩, ⟨"BT2 2BB", some "GB-NIR"⟩]

/-- One OSNI street point matching `BT1 1AA`. -/
def exOsni : List OsniRow :=
  [⟨"osni1", some "BT11AA", "Falls Road", "FALLS ROAD", "run-osni"⟩]

/-- One DFI segment per postcode. -/
def exDfi : List DfiRow :=
  [⟨"seg1", some "BT11AA", "Falls Road", "FALLS ROAD", "run-dfi"⟩,
   ⟨"seg2", some "BT22BB", "Main Street", "MAIN STREET", "run-dfi"⟩]

end Postcodes

namespace Postcodes

/-! ## Publication (`publish_build`, workflows.py) -/

/-- A row of `meta.build_run` (the fields publish touches). -/
structure BuildRunRow where
  build_run_id : String
  bundle_id : String
  dataset_version : String
  status : String
  current_pass : String
  finished_at_utc : Option Nat
deriving DecidableEq

/-- A row of `meta.dataset_publication`; times and transaction ids as `Nat`. -/
structure PublicationRow where
  dataset_version : String
  build_run_id : String
  published_at_utc : Nat
  published_by : String
  lookup_table_name : String
  street_lookup_table_name : String
  publish_txid : Nat
deriving DecidableEq

/-- The result record of `publish_build`. -/
structure PublishResult where
  build_run_id : String
  dataset_version : String
  status : String
deriving DecidableEq

/-- The database state publish reads and writes: the run and bundle rows, the
existing `api` relations (`to_regclass`), the two alias views, and the
publication table. -/
structure PublishDb where
  build_run : List BuildRunRow
  build_bundle_status : List (String × String)
  api_tables : List String
  lookup_alias : Option String
  street_alias : Option String
  dataset_publication : List PublicationRow
deriving DecidableEq

/-- A word character for `_safe_version_suffix` (`[A-Za-z0-9_]`). -/
def isSuffixWordChar (c : Char) : Bool :=
  (decide (65 ≤ c.toNat) && decide (c.toNat ≤ 90)) ||
  (decide (97 ≤ c.toNat) && decide (c.toNat ≤ 122)) ||
  (decide (48 ≤ c.toNat) && decide (c.toNat ≤ 57)) ||
  decide (c.toNat = 95)

/-- `_safe_version_suffix` from workflows.py: non-word characters become `_`;
an empty result collapses to `v3`. -/
def _safe_version_suffix (dataset_version : String) : String :=
  let subbed := dataset_version.data.map (fun c => if isSuffixWordChar c then c else '_')
  if subbed = [] then "v3" else ⟨subbed⟩

/-- `ON CONFLICT (dataset_version) DO UPDATE` on `meta.dataset_publication`. -/
def upsertPub (pubs : List PublicationRow) (row : PublicationRow) : List PublicationRow :=
  if pubs.any (fun p => p.dataset_version = row.dataset_version) then
    pubs.map (fun p => if p.dataset_version = row.dataset_version then row else p)
  else pubs ++ [row]

/-- `publish_build` from workflows.py: validate the run status and the two
versioned projection tables, swap the alias views, upsert the publication row
(`now`/`txid` standing for `now()` and `txid_current()`), and mark the run and
bundle `published`, preserving `finished_at_utc` when set. -/
def publish_build (db : PublishDb) (build_run_id actor : String) (now txid : Nat) :
    Except String (PublishDb × PublishResult) :=
  match db.build_run.find? (fun r => r.build_run_id = build_run_id) with
  | none => .error ("Build run not found: " ++ build_run_id)
  | some run =>
      if run.status ≠ "built" ∧ run.status ≠ "published" then
        .error ("Build run " ++ build_run_id ++ " must be built before publish")
      else
        let suffix := _safe_version_suffix run.dataset_version
        let lookup_table := "api.postcode_lookup__" ++ suffix
        let street_table := "api.postcode_street_lookup__" ++ suffix
        if ¬ (lookup_table ∈ db.api_tables ∧ street_table ∈ db.api_tables) then
          .error "Cannot publish: versioned api tables are missing"
        else
          .ok
            ({ db with
                lookup_alias := some lookup_table
                street_alias := some street_table
                dataset_publication := upsertPub db.dataset_publication
                  ⟨run.dataset_version, build_run_id, now, actor, lookup_table,
                   street_table, txid⟩
                build_run := db.build_run.map (fun r =>
                  if r.build_run_id = build_run_id then
                    { r with
                        status := "published"
                        current_pass := "published"
                        finished_at_utc := some (r.finished_at_utc.getD now) }
                  else r)
                build_bundle_status := db.build_bundle_status.map (fun bs =>
                  if bs.1 = run.bundle_id then (bs.1, "published") else bs) },
              ⟨build_run_id, run.dataset_version, "published"⟩)

end Postcodes

namespace Postcodes

/-! ## Concrete publish scenario for the witness -/

/-- A built run with both versioned projection tables present. -/
def exPubDb : PublishDb :=
  ⟨[⟨"run1", "bundle1", "v3_abc", "built", "8_finalisation", none⟩],
   [("bundle1", "built")],
   ["api.postcode_lookup__v3_abc", "api.postcode_street_lookup__v3_abc"],
   none, none, []⟩

/-- `exPubDb` after a first `publish_build` at time 100, txid 7, actor
`alice`. -/
def exPubDb1 : PublishDb :=
  ⟨[⟨"run1", "bundle1", "v3_abc", "published", "published", some 100⟩],
   [("bundle1", "published")],
   ["api.postcode_lookup__v3_abc", "api.postcode_street_lookup__v3_abc"],
   some "api.postcode_lookup__v3_abc", some "api.postcode_street_lookup__v3_abc",
   [⟨"v3_abc", "run1", 100, "alice", "api.postcode_lookup__v3_abc",
     "api.postcode_street_lookup__v3_abc", 7⟩]⟩

end Postcodes

namespace Postcodes

/-! ## Helper lemmas about normalisation -/

theorem pyUpperChar_alnum {c : Nat} (h : isAsciiAlnum c = true) :
    isUpperAlnum (pyUpperChar c) = true := by
  simp only [isAsciiAlnum, Bool.or_eq_true, Bool.and_eq_true, decide_eq_true_eq] at h
  simp only [isUpperAlnum, pyUpperChar, Bool.or_eq_true, Bool.and_eq_true, decide_eq_true_eq]
  split <;> omega

theorem pyUpperChar_fix {c : Nat} (h : isUpperAlnum c = true) :
    pyUpperChar c = c := by
  simp only [isUpperAlnum, Bool.or_eq_true, Bool.and_eq_true, decide_eq_true_eq] at h
  simp only [pyUpperChar]
  split <;> omega

theorem isAsciiAlnum_of_upper {c : Nat} (h : isUpperAlnum c = true) :
    isAsciiAlnum c = true := by
  simp only [isUpperAlnum, Bool.or_eq_true, Bool.and_eq_true, decide_eq_true_eq] at h
  simp only [isAsciiAlnum, Bool.or_eq_true, Bool.and_eq_true, decide_eq_true_eq]
  omega

theorem mem_normChars_upper {s : List Nat} {c : Nat} (h : c ∈ normChars s) :
    isUpperAlnum c = true := by
  simp only [normChars, List.mem_map] at h
  obtain ⟨a, ha, rfl⟩ := h
  exact pyUpperChar_alnum (List.of_mem_filter ha)

/-- Normalising already-normal text changes nothing. -/
theorem normChars_idem (s : List Nat) : normChars (normChars s) = normChars s := by
  have hfix : ∀ c ∈ normChars s, pyUpperChar c = c := fun c hc =>
    pyUpperChar_fix (mem_normChars_upper hc)
  have hfil : (normChars s).filter isAsciiAlnum = normChars s :=
    List.filter_eq_self.2 fun c hc => isAsciiAlnum_of_upper (mem_normChars_upper hc)
  show ((normChars s).filter isAsciiAlnum).map pyUpperChar = normChars s
  rw [hfil]
  exact (List.map_congr_left hfix).trans (List.map_id _)

theorem normChars_append (a b : List Nat) :
    normChars (a ++ b) = normChars a ++ normChars b := by
  simp [normChars, List.filter_append]

theorem normChars_space : normChars [32] = [] := by decide

end Postcodes

namespace Postcodes

theorem normChars_take_drop (l : List Nat) (k : Nat) :
    normChars (l.take k) ++ normChars (l.drop k) = normChars l := by
  rw [← normChars_append, List.take_append_drop]

/-- C10: `postcode_norm` returns `None` exactly when the input has no
alphanumeric characters, and otherwise a non-empty string of upper-case
letters and digits; `postcode_display` is `None` exactly when `postcode_norm`
is, and otherwise equals the normalised form, with a single space inserted
before the last three characters when longer than three; and the display form
round-trips: `postcode_norm (postcode_display s) = postcode_norm s`. -/
theorem postcode_norm_display_spec (s : List Nat) :
    (postcode_norm (some s) = none ↔ ∀ c ∈ s, isAsciiAlnum c = false) ∧
    (∀ t, postcode_norm (some s) = some t →
      t ≠ [] ∧ ∀ c ∈ t, isUpperAlnum c = true) ∧
    (postcode_display (some s) = none ↔ postcode_norm (some s) = none) ∧
    (∀ t, postcode_norm (some s) = some t →
      postcode_display (some s) =
        some (if t.length ≤ 3 then t
              else t.take (t.length - 3) ++ 32 :: t.drop (t.length - 3))) ∧
    postcode_norm (postcode_display (some s)) = postcode_norm (some s) := by
  have hns : ∀ u : List Nat,
      postcode_norm (some u) = if normChars u = [] then none else some (normChars u) :=
    fun u => rfl
  by_cases hnil : normChars s = []
  · have hfil : s.filter isAsciiAlnum = [] := List.map_eq_nil_iff.1 hnil
    have hall : ∀ c ∈ s, isAsciiAlnum c = false := by
      intro c hc
      by_contra hcon
      have hmem : c ∈ s.filter isAsciiAlnum :=
        List.mem_filter.2 ⟨hc, by revert hcon; cases isAsciiAlnum c <;> simp⟩
      simp [hfil] at hmem
    refine ⟨⟨fun _ => hall, fun _ => by rw [hns, if_pos hnil]⟩, ?_, ?_, ?_, ?_⟩
    · intro t ht
      rw [hns, if_pos hnil] at ht
      cases ht
    · simp [postcode_display, hns, hnil]
    · intro t ht
      rw [hns, if_pos hnil] at ht
      cases ht
    · simp [postcode_display, hns, hnil, postcode_norm]
  · have hfne : s.filter isAsciiAlnum ≠ [] := fun hf => hnil (by simp [normChars, hf])
    have hmem_ex : ∃ c ∈ s, isAsciiAlnum c = true := by
      obtain ⟨c, hc⟩ := List.exists_mem_of_ne_nil _ hfne
      exact ⟨c, List.mem_of_mem_filter hc, List.of_mem_filter hc⟩
    refine ⟨?_, ?_, ?_, ?_, ?_⟩
    · rw [hns, if_neg hnil]
      constructor
      · intro h
        cases h
      · intro h
        obtain ⟨c, hcs, hca⟩ := hmem_ex
        rw [h c hcs] at hca
        cases hca
    · intro t ht
      rw [hns, if_neg hnil, Option.some_inj] at ht
      subst ht
      exact ⟨hnil, fun c hc => mem_normChars_upper hc⟩
    · simp [postcode_display, hns, hnil]
    · intro t ht
      simp [postcode_display, ht]
    · rw [postcode_display, hns s, if_neg hnil, Option.map_some']
      have hnorm_n : normChars (normChars s) = normChars s := normChars_idem s
      by_cases hlen : (normChars s).length ≤ 3
      · rw [if_pos hlen, hns, hnorm_n, if_neg hnil]
      · rw [if_neg hlen]
        have hsplit :
            normChars ((normChars s).take ((normChars s).length - 3) ++
              32 :: (normChars s).drop ((normChars s).length - 3)) = normChars s := by
          have h32 : (32 : Nat) :: (normChars s).drop ((normChars s).length - 3) =
              [32] ++ (normChars s).drop ((normChars s).length - 3) := rfl
          rw [h32, normChars_append, normChars_append, normChars_space,
            List.nil_append, normChars_take_drop, hnorm_n]
        rw [hns, hsplit, if_neg hnil]

/-- Witness for C10 at the concrete input "aB1 2-cd". -/
theorem postcode_norm_display_spec_witness :
    postcode_norm (some [97, 66, 49, 32, 50, 45, 99, 100]) =
      some [65, 66, 49, 50, 67, 68] ∧
    postcode_display (some [97, 66, 49, 32, 50, 45, 99, 100]) =
      some (if ([65, 66, 49, 50, 67, 68] : List Nat).length ≤ 3
            then [65, 66, 49, 50, 67, 68]
            else ([65, 66, 49, 50, 67, 68] : List Nat).take (6 - 3) ++
              32 :: ([65, 66, 49, 50, 67, 68] : List Nat).drop (6 - 3)) ∧
    postcode_norm (postcode_display (some [97, 66, 49, 32, 50, 45, 99, 100])) =
      postcode_norm (some [97, 66, 49, 32, 50, 45, 99, 100]) :=
  ⟨by decide,
   (postcode_norm_display_spec [97, 66, 49, 32, 50, 45, 99, 100]).2.2.2.1
     [65, 66, 49, 50, 67, 68] (by decide),
   (postcode_norm_display_spec [97, 66, 49, 32, 50, 45, 99, 100]).2.2.2.2⟩

end Postcodes

namespace Postcodes

/-! ## C5 — ONSPD country resolution -/

/-- C5 counterexample: the code `E92000999` has prefix `E92`, yet
`_onspd_country_mapping` resolves it to a null subdivision, because the source
matches the four ONS codes exactly rather than by prefix. -/
theorem onspd_country_mapping_prefix_refuted :
    "E92000999".take 3 = "E92" ∧
    _onspd_country_mapping (some "E92000999") = ("GB", "GBR", none) ∧
    (_onspd_country_mapping (some "E92000999")).2.2 ≠ some "GB-ENG" := by
  refine ⟨by decide, by decide, by decide⟩

/-- C5 amended: ONSPD staging always resolves country `GB`/`GBR`; the
subdivision is `GB-ENG`, `GB-SCT`, `GB-WLS` or `GB-NIR` exactly when the
stripped, upper-cased code equals `E92000001`, `S92000003`, `W92000004` or
`N92000002` respectively, and is null for every other code. -/
theorem onspd_country_mapping_exact (value : Option String) :
    ((_onspd_country_mapping value).1 = "GB" ∧
      (_onspd_country_mapping value).2.1 = "GBR") ∧
    ((_onspd_country_mapping value).2.2 = some "GB-ENG" ↔
      pyStripUpper value = "E92000001") ∧
    ((_onspd_country_mapping value).2.2 = some "GB-SCT" ↔
      pyStripUpper value = "S92000003") ∧
    ((_onspd_country_mapping value).2.2 = some "GB-WLS" ↔
      pyStripUpper value = "W92000004") ∧
    ((_onspd_country_mapping value).2.2 = some "GB-NIR" ↔
      pyStripUpper value = "N92000002") ∧
    (pyStripUpper value ≠ "E92000001" → pyStripUpper value ≠ "S92000003" →
      pyStripUpper value ≠ "W92000004" → pyStripUpper value ≠ "N92000002" →
      (_onspd_country_mapping value).2.2 = none) := by
  simp only [_onspd_country_mapping]
  split_ifs with h1 h2 h3 h4 h5 <;> simp_all

end Postcodes

namespace Postcodes

/-- Witness for the amended C5 statement at concrete codes. -/
theorem onspd_country_mapping_exact_witness :
    (_onspd_country_mapping (some " s92000003 ")).2.2 = some "GB-SCT" ∧
    (_onspd_country_mapping (some "X1")).2.2 = none :=
  ⟨((onspd_country_mapping_exact (some " s92000003 ")).2.2.1).2 (by decide),
   (onspd_country_mapping_exact (some "X1")).2.2.2.2.2
     (by decide) (by decide) (by decide) (by decide)⟩

end Postcodes

namespace Postcodes

/-! ## Rounding arithmetic -/

theorem round4_int_div (n : ℤ) : round4 ((n : ℚ) / 10000) = (n : ℚ) / 10000 := by
  have hmul : ((n : ℚ) / 10000) * 10000 = (n : ℚ) := by
    rw [div_mul_cancel₀]
    norm_num
  have hfl : ⌊(n : ℚ) + 1 / 2⌋ = n := by
    rw [add_comm, Int.floor_add_int]
    norm_num
  rw [round4, hmul, hfl]

theorem round4_quant (q : ℚ) : IsQuant4 (round4 q) := ⟨⌊q * 10000 + 1 / 2⌋, rfl⟩

theorem IsQuant4.neg {q : ℚ} (h : IsQuant4 q) : IsQuant4 (-q) := by
  obtain ⟨n, rfl⟩ := h
  exact ⟨-n, by push_cast; ring⟩

theorem IsQuant4.add {a b : ℚ} (ha : IsQuant4 a) (hb : IsQuant4 b) : IsQuant4 (a + b) := by
  obtain ⟨m, rfl⟩ := ha
  obtain ⟨n, rfl⟩ := hb
  exact ⟨m + n, by push_cast; ring⟩

theorem IsQuant4.sub {a b : ℚ} (ha : IsQuant4 a) (hb : IsQuant4 b) : IsQuant4 (a - b) := by
  simpa [sub_eq_add_neg] using ha.add hb.neg

theorem isQuant4_one : IsQuant4 1 := ⟨10000, by norm_num⟩

theorem round4_eq_self {q : ℚ} (h : IsQuant4 q) : round4 q = q := by
  obtain ⟨n, rfl⟩ := h
  exact round4_int_div n

theorem pgRound4_eq_self {q : ℚ} (h : IsQuant4 q) : pgRound4 q = q := by
  rw [pgRound4]
  split
  · exact round4_eq_self h
  · rw [round4_eq_self h.neg, neg_neg]

theorem pgRound4_eq_round4 {q : ℚ} (h : 0 ≤ q) : pgRound4 q = round4 q := if_pos h

theorem pgRound4_quant (q : ℚ) : IsQuant4 (pgRound4 q) := by
  rw [pgRound4]
  split
  · exact round4_quant q
  · exact (round4_quant (-q)).neg

theorem isQuant4_sum {l : List ℚ} (h : ∀ x ∈ l, IsQuant4 x) : IsQuant4 l.sum := by
  induction l with
  | nil => exact ⟨0, by norm_num⟩
  | cons a t ih =>
      rw [List.sum_cons]
      exact (h a (List.mem_cons_self a t)).add
        (ih fun x hx => h x (List.mem_cons_of_mem a hx))

end Postcodes

namespace Postcodes

/-! ## Pass 8 structural lemmas -/

theorem lookup_mem {α β : Type} [BEq α] [LawfulBEq α] {l : List (α × β)} {k : α} {v : β}
    (h : l.lookup k = some v) : (k, v) ∈ l := by
  induction l with
  | nil => cases h
  | cons p t ih =>
      rw [List.lookup] at h
      cases hk : k == p.1 with
      | true =>
          simp only [hk] at h
          cases h
          have hkk : k = p.1 := eq_of_beq hk
          subst hkk
          exact List.mem_cons_self _ _
      | false =>
          simp only [hk] at h
          exact List.mem_cons_of_mem _ (ih h)

theorem weight_config_pos {weights wm : List (String × ℚ)}
    (hok : _weight_config weights = .ok wm)
    (hw : ∀ p ∈ weights, 0 < p.2) : ∀ p ∈ wm, 0 < p.2 := by
  intro p hp
  rw [_weight_config] at hok
  split_ifs at hok
  cases hok
  obtain ⟨t, _, hmap⟩ := List.mem_filterMap.1 hp
  obtain ⟨w, hlk, rfl⟩ := Option.map_eq_some'.1 hmap
  exact hw (t, w) (lookup_mem hlk)

theorem weightedCandidates_pos {wm : List (String × ℚ)} {streets : List (Int × String)}
    {cands : List Candidate} (hwm : ∀ p ∈ wm, 0 < p.2) :
    ∀ r ∈ weightedCandidates wm streets cands, 0 < r.weight := by
  intro r hr
  obtain ⟨c, _, hmap⟩ := List.mem_filterMap.1 hr
  obtain ⟨w, hlk, rfl⟩ := Option.map_eq_some'.1 hmap
  exact hwm (c.candidate_type, w) (lookup_mem hlk)

theorem mem_postcodesOf {wcs : List WCand} {pc : String} :
    pc ∈ postcodesOf wcs ↔ ∃ r ∈ wcs, r.postcode = pc := by
  rw [postcodesOf]
  rw [((wcs.map (fun r => r.postcode)).dedup.mergeSort_perm strLE).mem_iff]
  simp [List.mem_dedup, List.mem_map, eq_comm]

theorem nodup_postcodesOf (wcs : List WCand) : (postcodesOf wcs).Nodup := by
  rw [postcodesOf]
  exact (((wcs.map (fun r => r.postcode)).dedup.mergeSort_perm strLE).nodup_iff).2
    (List.nodup_dedup _)

theorem mem_groupNames {wcs : List WCand} {pc sn : String} :
    sn ∈ groupNames wcs pc ↔ ∃ r ∈ wcs, r.postcode = pc ∧ r.canonical_street_name = sn := by
  rw [groupNames, List.mem_dedup]
  constructor
  · intro h
    obtain ⟨r, hr, rfl⟩ := List.mem_map.1 h
    exact ⟨r, List.mem_of_mem_filter hr, by
      have := List.of_mem_filter hr
      simpa using this, rfl⟩
  · rintro ⟨r, hr, hpc, rfl⟩
    exact List.mem_map.2 ⟨r, List.mem_filter.2 ⟨hr, by simpa using hpc⟩, rfl⟩

theorem rowsFor_ne_nil {wcs : List WCand} {pc sn : String}
    (h : sn ∈ groupNames wcs pc) : rowsFor wcs pc sn ≠ [] := by
  obtain ⟨r, hr, hpc, hsn⟩ := mem_groupNames.1 h
  intro hnil
  have : r ∈ rowsFor wcs pc sn := List.mem_filter.2 ⟨hr, by simp [hpc, hsn]⟩
  rw [hnil] at this
  exact absurd this (List.not_mem_nil r)

theorem mkGroup_score_pos {wcs : List WCand} {pc sn : String}
    (hpos : ∀ r ∈ wcs, 0 < r.weight) (h : sn ∈ groupNames wcs pc) :
    0 < (mkGroup wcs pc sn).weighted_score := by
  refine List.sum_pos _ ?_ ?_
  · intro x hx
    obtain ⟨r, hr, rfl⟩ := List.mem_map.1 hx
    exact hpos r (List.mem_of_mem_filter hr)
  · simpa using rowsFor_ne_nil h

theorem groupNames_ne_nil {wcs : List WCand} {pc : String}
    (h : pc ∈ postcodesOf wcs) : groupNames wcs pc ≠ [] := by
  obtain ⟨r, hr, rfl⟩ := mem_postcodesOf.1 h
  intro hnil
  have : r.canonical_street_name ∈ groupNames wcs r.postcode :=
    mem_groupNames.2 ⟨r, hr, rfl, rfl⟩
  rw [hnil] at this
  exact absurd this (List.not_mem_nil _)

theorem totalWeight_pos {wcs : List WCand} {pc : String}
    (hpos : ∀ r ∈ wcs, 0 < r.weight) (h : pc ∈ postcodesOf wcs) :
    0 < totalWeight wcs pc := by
  refine List.sum_pos _ ?_ ?_
  · intro x hx
    obtain ⟨g, hg, rfl⟩ := List.mem_map.1 hx
    obtain ⟨sn, hsn, rfl⟩ := List.mem_map.1 hg
    exact mkGroup_score_pos hpos hsn
  · simp only [groupsFor, List.map_map, ne_eq, List.map_eq_nil_iff]
    exact groupNames_ne_nil h

theorem scoredGroups_raw_nonneg {wcs : List WCand} {pc : String}
    (hpos : ∀ r ∈ wcs, 0 < r.weight) (hpc : pc ∈ postcodesOf wcs) :
    ∀ sg ∈ scoredGroups wcs pc, 0 ≤ sg.raw_probability := by
  intro sg hsg
  obtain ⟨g, hg, rfl⟩ := List.mem_map.1 hsg
  obtain ⟨sn, hsn, rfl⟩ := List.mem_map.1 hg
  exact le_of_lt (div_pos (mkGroup_score_pos hpos hsn) (totalWeight_pos hpos hpc))

theorem scoredGroups_postcode {wcs : List WCand} {pc : String} :
    ∀ sg ∈ scoredGroups wcs pc, sg.g.postcode = pc := by
  intro sg hsg
  obtain ⟨g, hg, rfl⟩ := List.mem_map.1 hsg
  obtain ⟨sn, _, rfl⟩ := List.mem_map.1 hg
  rfl

theorem rankedGroups_perm (wcs : List WCand) (pc : String) :
    List.Perm (rankedGroups wcs pc) (scoredGroups wcs pc) :=
  (scoredGroups wcs pc).mergeSort_perm rankLE

theorem finalisePostcode_postcode {wcs : List WCand} {pc : String} :
    ∀ r ∈ finalisePostcode wcs pc, r.postcode = pc := by
  intro r hr
  rw [finalisePostcode] at hr
  split at hr
  · cases hr
  · rename_i r1 rest heq
    have hmem : ∀ sg ∈ rankedGroups wcs pc, sg.g.postcode = pc := fun sg hsg =>
      scoredGroups_postcode sg ((rankedGroups_perm wcs pc).mem_iff.1 hsg)
    rcases List.mem_cons.1 hr with hr1 | hrest
    · subst hr1
      exact hmem r1 (heq ▸ List.mem_cons_self _ _)
    · obtain ⟨sg, hsg, rfl⟩ := List.mem_map.1 hrest
      exact hmem sg (heq ▸ List.mem_cons_of_mem _ hsg)

end Postcodes

namespace Postcodes

theorem filter_flatMap_eq {L : List String} {f : String → List FinalRow}
    (hL : L.Nodup) (hf : ∀ x ∈ L, ∀ r ∈ f x, r.postcode = x) {pc : String} (hpc : pc ∈ L) :
    (L.flatMap f).filter (fun r => r.postcode = pc) = f pc := by
  induction L with
  | nil => cases hpc
  | cons a t ih =>
      rw [List.flatMap_cons, List.filter_append]
      rcases List.mem_cons.1 hpc with rfl | hpt
      · have h1 : (f pc).filter (fun r => r.postcode = pc) = f pc :=
          List.filter_eq_self.2 fun r hr => by
            simpa using hf pc (List.mem_cons_self _ _) r hr
        have h2 : (t.flatMap f).filter (fun r => r.postcode = pc) = [] :=
          List.filter_eq_nil_iff.2 fun r hr => by
            obtain ⟨x, hx, hrx⟩ := List.mem_flatMap.1 hr
            have : r.postcode = x := hf x (List.mem_cons_of_mem _ hx) r hrx
            have hxne : x ≠ pc := fun hcon => (List.nodup_cons.1 hL).1 (hcon ▸ hx)
            simp [this, hxne]
        rw [h1, h2, List.append_nil]
      · have h1 : (f a).filter (fun r => r.postcode = pc) = [] :=
          List.filter_eq_nil_iff.2 fun r hr => by
            have : r.postcode = a := hf a (List.mem_cons_self _ _) r hr
            have hane : a ≠ pc := fun hcon => (List.nodup_cons.1 hL).1 (hcon ▸ hpt)
            simp [this, hane]
        rw [h1, List.nil_append]
        exact ih (List.nodup_cons.1 hL).2 (fun x hx => hf x (List.mem_cons_of_mem _ hx)) hpt

theorem filter_finalOutput {wcs : List WCand} {pc : String} (hpc : pc ∈ postcodesOf wcs) :
    (finalOutput wcs).filter (fun r => r.postcode = pc) = finalisePostcode wcs pc :=
  filter_flatMap_eq (nodup_postcodesOf wcs)
    (fun x _ r hr => finalisePostcode_postcode r hr) hpc

theorem finalisePostcode_probs {wcs : List WCand} {pc : String}
    (hpos : ∀ r ∈ wcs, 0 < r.weight) (hpc : pc ∈ postcodesOf wcs) :
    ∃ r1 rest, rankedGroups wcs pc = r1 :: rest ∧
      (finalisePostcode wcs pc).map (fun r => r.probability) =
        (round4 r1.raw_probability + (1 - roundedSum4 wcs pc)) ::
          rest.map (fun sg => round4 sg.raw_probability) ∧
      ((finalisePostcode wcs pc).map (fun r => r.probability)).sum = 1 := by
  have hnonneg : ∀ sg ∈ scoredGroups wcs pc, 0 ≤ sg.raw_probability :=
    scoredGroups_raw_nonneg hpos hpc
  have hnonneg' : ∀ sg ∈ rankedGroups wcs pc, 0 ≤ sg.raw_probability := fun sg hsg =>
    hnonneg sg ((rankedGroups_perm wcs pc).mem_iff.1 hsg)
  have hsum_eq : roundedSumPg wcs pc = roundedSum4 wcs pc := by
    rw [roundedSumPg, roundedSum4]
    exact congrArg List.sum (List.map_congr_left fun sg hsg =>
      pgRound4_eq_round4 (hnonneg sg hsg))
  have hne : rankedGroups wcs pc ≠ [] := by
    intro hnil
    have : scoredGroups wcs pc = [] :=
      List.Perm.eq_nil (hnil ▸ (rankedGroups_perm wcs pc).symm)
    have hgn : groupNames wcs pc = [] := by
      simpa [scoredGroups, groupsFor, List.map_eq_nil_iff] using this
    exact groupNames_ne_nil hpc hgn
  obtain ⟨r1, rest, heq⟩ := List.exists_cons_of_ne_nil hne
  refine ⟨r1, rest, heq, ?_, ?_⟩
  · rw [finalisePostcode, heq]
    simp only [List.map_cons, List.map_map, finalRowOf]
    have hq : IsQuant4 (pgRound4 r1.raw_probability + (1 - roundedSumPg wcs pc)) :=
      (pgRound4_quant _).add (isQuant4_one.sub (isQuant4_sum (by
        intro x hx
        obtain ⟨sg, _, rfl⟩ := List.mem_map.1 hx
        exact pgRound4_quant _)))
    have hhead : pgRound4 (pgRound4 r1.raw_probability + (1 - roundedSumPg wcs pc)) =
        round4 r1.raw_probability + (1 - roundedSum4 wcs pc) := by
      rw [pgRound4_eq_self hq, hsum_eq,
        pgRound4_eq_round4 (hnonneg' r1 (heq ▸ List.mem_cons_self _ _))]
    rw [hhead]
    congr 1
    refine List.map_congr_left fun sg hsg => ?_
    have h0 : 0 ≤ sg.raw_probability :=
      hnonneg' sg (heq ▸ List.mem_cons_of_mem _ hsg)
    show pgRound4 (pgRound4 sg.raw_probability) = round4 sg.raw_probability
    rw [pgRound4_eq_self (pgRound4_quant _), pgRound4_eq_round4 h0]
  · rw [finalisePostcode, heq]
    simp only [List.map_cons, List.sum_cons, List.map_map, finalRowOf]
    have hperm : List.Perm ((rankedGroups wcs pc).map (fun sg => pgRound4 sg.raw_probability))
        ((scoredGroups wcs pc).map (fun sg => pgRound4 sg.raw_probability)) :=
      (rankedGroups_perm wcs pc).map _
    have hsum : roundedSumPg wcs pc =
        pgRound4 r1.raw_probability +
          (rest.map (fun sg => pgRound4 sg.raw_probability)).sum := by
      rw [roundedSumPg, ← hperm.sum_eq, heq]
      simp
    have hrest : (rest.map (fun sg =>
        (finalRowOf sg (pgRound4 sg.raw_probability)).probability)).sum =
        (rest.map (fun sg => pgRound4 sg.raw_probability)).sum := by
      refine congrArg List.sum (List.map_congr_left fun sg hsg => ?_)
      show pgRound4 (pgRound4 sg.raw_probability) = pgRound4 sg.raw_probability
      exact pgRound4_eq_self (pgRound4_quant _)
    have hq : IsQuant4 (pgRound4 r1.raw_probability + (1 - roundedSumPg wcs pc)) :=
      (pgRound4_quant _).add (isQuant4_one.sub (isQuant4_sum (by
        intro x hx
        obtain ⟨sg, _, rfl⟩ := List.mem_map.1 hx
        exact pgRound4_quant _)))
    show pgRound4 (pgRound4 r1.raw_probability + (1 - roundedSumPg wcs pc)) +
        (rest.map (fun sg => (finalRowOf sg (pgRound4 sg.raw_probability)).probability)).sum = 1
    rw [pgRound4_eq_self hq, hrest, hsum]
    ring

end Postcodes

namespace Postcodes

theorem rowTotal_pos {wcs : List WCand} {pc : String}
    (hpos : ∀ r ∈ wcs, 0 < r.weight) (hpc : pc ∈ postcodesOf wcs) :
    0 < rowTotal wcs pc := by
  refine List.sum_pos _ ?_ ?_
  · intro x hx
    obtain ⟨r, hr, rfl⟩ := List.mem_map.1 hx
    exact hpos r (List.mem_of_mem_filter hr)
  · obtain ⟨r, hr, rfl⟩ := mem_postcodesOf.1 hpc
    intro hnil
    have : r ∈ wcs.filter (fun x => x.postcode = r.postcode) :=
      List.mem_filter.2 ⟨hr, by simp⟩
    rw [List.map_eq_nil_iff.1 hnil] at this
    exact absurd this (List.not_mem_nil r)

/-- C1: whenever pass 8 completes, the probability stored for each
`(postcode, canonical_street_name)` group is its raw probability
(`weighted_score / total_weight`) rounded half-up to four decimal places,
except the rank-1 group (under the ordering `raw_probability DESC, conf_rank
DESC, canonical_street_name ASC, usrn ASC NULLS LAST`), which receives its
rounded value plus the residual `1 - rounded_sum`; consequently the stored
probabilities of every postcode sum to exactly `1`. -/
theorem pass8_probability_normalisation
    {weights wm : List (String × ℚ)} {streets : List (Int × String)}
    {cands : List Candidate} {out : List FinalRow}
    (hw : ∀ p ∈ weights, 0 < p.2)
    (hcfg : _weight_config weights = .ok wm)
    (hok : _pass_8_finalisation weights streets cands = .ok out) :
    out = finalOutput (weightedCandidates wm streets cands) ∧
    ∀ pc ∈ postcodesOf (weightedCandidates wm streets cands),
      ∃ r1 rest,
        rankedGroups (weightedCandidates wm streets cands) pc = r1 :: rest ∧
        (out.filter (fun r => r.postcode = pc)).map (fun r => r.probability) =
          (round4 r1.raw_probability +
            (1 - roundedSum4 (weightedCandidates wm streets cands) pc)) ::
            rest.map (fun sg => round4 sg.raw_probability) ∧
        ((out.filter (fun r => r.postcode = pc)).map (fun r => r.probability)).sum = 1 := by
  have hpos : ∀ r ∈ weightedCandidates wm streets cands, 0 < r.weight :=
    weightedCandidates_pos (weight_config_pos hcfg hw)
  have hstep : _pass_8_finalisation weights streets cands =
      (if ((postcodesOf (weightedCandidates wm streets cands)).any
            fun pc => decide (rowTotal (weightedCandidates wm streets cands) pc ≤ 0)) = true
        then Except.error "Finalisation failed: total_weight <= 0"
        else Except.ok (finalOutput (weightedCandidates wm streets cands))) := by
    rw [_pass_8_finalisation, hcfg]
  have hout : out = finalOutput (weightedCandidates wm streets cands) := by
    rw [hstep] at hok
    split_ifs at hok with hany
    exact (Except.ok.inj hok).symm
  refine ⟨hout, ?_⟩
  intro pc hpc
  obtain ⟨r1, rest, heq, hmap, hsum⟩ := finalisePostcode_probs hpos hpc
  refine ⟨r1, rest, heq, ?_, ?_⟩
  · rw [hout, filter_finalOutput hpc]
    exact hmap
  · rw [hout, filter_finalOutput hpc]
    exact hsum

/-! Witness for C1: the two-candidate scenario of the specification, weights
3 and 1, probabilities `0.75` and `0.25` summing to exactly `1`.  The
`Rat` operations are locally unfoldable so `decide` can evaluate the embedded
pipeline in the kernel. -/
section
attribute [local semireducible] Rat.add Rat.mul Rat.inv Rat.sub Rat.ofScientific

unseal List.merge List.mergeSort in
theorem pass8_probability_normalisation_witness :
    _pass_8_finalisation exampleWeights [] exampleCands =
      .ok (finalOutput (weightedCandidates
        (CANDIDATE_TYPES.filterMap
          (fun t => (exampleWeights.lookup t).map (fun w => (t, w)))) [] exampleCands)) ∧
    (((finalOutput (weightedCandidates
        (CANDIDATE_TYPES.filterMap
          (fun t => (exampleWeights.lookup t).map (fun w => (t, w)))) [] exampleCands)).filter
      (fun r => r.postcode = "AA1 1AA")).map (fun r => r.probability)).sum = 1 := by
  have hw : ∀ p ∈ exampleWeights, 0 < p.2 := by decide
  have hcfg : _weight_config exampleWeights =
      .ok (CANDIDATE_TYPES.filterMap
        (fun t => (exampleWeights.lookup t).map (fun w => (t, w)))) := by decide
  have hok : _pass_8_finalisation exampleWeights [] exampleCands =
      .ok (finalOutput (weightedCandidates
        (CANDIDATE_TYPES.filterMap
          (fun t => (exampleWeights.lookup t).map (fun w => (t, w)))) [] exampleCands)) := by
    decide
  have h := pass8_probability_normalisation hw hcfg hok
  refine ⟨hok, ?_⟩
  have hpc : "AA1 1AA" ∈ postcodesOf (weightedCandidates
      (CANDIDATE_TYPES.filterMap
        (fun t => (exampleWeights.lookup t).map (fun w => (t, w)))) [] exampleCands) := by
    decide
  obtain ⟨r1, rest, _, _, hsum⟩ := h.2 "AA1 1AA" hpc
  rw [h.1] at hsum
  exact hsum

end

end Postcodes

namespace Postcodes

theorem lookup_eq_none_iff {l : List (String × ℚ)} {t : String} :
    l.lookup t = none ↔ t ∉ l.map Prod.fst := by
  induction l with
  | nil => simp
  | cons p l ih =>
      rw [List.lookup]
      cases hk : t == p.1 with
      | true =>
          have : t = p.1 := eq_of_beq hk
          simp [this]
      | false =>
          have : t ≠ p.1 := fun hc => by simp [hc] at hk
          simp [ih, this]

/-- C6: loading the frequency-weight configuration succeeds exactly when the
weights object carries exactly the eight canonical candidate types with every
weight strictly positive; with any other configuration the load fails and
pass 8 fails before running. -/
theorem weight_config_exact (weights : List (String × ℚ)) :
    ((∃ wm, _weight_config weights = .ok wm) ↔
      ((∀ t ∈ CANDIDATE_TYPES, t ∈ weights.map Prod.fst) ∧
       (∀ k ∈ weights.map Prod.fst, k ∈ CANDIDATE_TYPES) ∧
       (∀ p ∈ weights, 0 < p.2))) ∧
    (¬ ((∀ t ∈ CANDIDATE_TYPES, t ∈ weights.map Prod.fst) ∧
        (∀ k ∈ weights.map Prod.fst, k ∈ CANDIDATE_TYPES) ∧
        (∀ p ∈ weights, 0 < p.2)) →
      ∀ streets cands, ∃ e, _pass_8_finalisation weights streets cands = .error e) := by
  have hmissing : (CANDIDATE_TYPES.filter (fun t => (weights.lookup t).isNone)) = [] ↔
      ∀ t ∈ CANDIDATE_TYPES, t ∈ weights.map Prod.fst := by
    rw [List.filter_eq_nil_iff]
    constructor
    · intro h t ht
      by_contra hcon
      have := h t ht
      rw [Option.isNone_iff_eq_none] at this
      exact this (lookup_eq_none_iff.2 hcon)
    · intro h t ht hcon
      rw [Option.isNone_iff_eq_none] at hcon
      exact lookup_eq_none_iff.1 hcon (h t ht)
  have hpos : (weights.any (fun p => decide (p.2 ≤ 0))) = false ↔
      ∀ p ∈ weights, 0 < p.2 := by
    rw [List.any_eq_false]
    constructor
    · intro h p hp
      have := h p hp
      simp only [decide_eq_true_eq] at this
      exact lt_of_not_le this
    · intro h p hp
      simp only [decide_eq_true_eq]
      exact not_le_of_lt (h p hp)
  have hunknown : (weights.filter (fun p => ¬ CANDIDATE_TYPES.contains p.1)) = [] ↔
      ∀ k ∈ weights.map Prod.fst, k ∈ CANDIDATE_TYPES := by
    rw [List.filter_eq_nil_iff]
    constructor
    · intro h k hk
      obtain ⟨p, hp, rfl⟩ := List.mem_map.1 hk
      have := h p hp
      simpa [List.elem_iff] using this
    · intro h p hp
      have : p.1 ∈ CANDIDATE_TYPES := h p.1 (List.mem_map.2 ⟨p, hp, rfl⟩)
      simp [List.elem_iff, this]
  have hiff : (∃ wm, _weight_config weights = .ok wm) ↔
      ((∀ t ∈ CANDIDATE_TYPES, t ∈ weights.map Prod.fst) ∧
       (∀ k ∈ weights.map Prod.fst, k ∈ CANDIDATE_TYPES) ∧
       (∀ p ∈ weights, 0 < p.2)) := by
    rw [_weight_config]
    constructor
    · rintro ⟨wm, hwm⟩
      split_ifs at hwm with h1 h2 h3
      push_neg at h1 h3
      refine ⟨hmissing.1 h1, hunknown.1 h3, hpos.1 ?_⟩
      cases hb : weights.any (fun p => decide (p.2 ≤ 0))
      · rfl
      · exact absurd hb h2
    · rintro ⟨h1, h2, h3⟩
      rw [if_neg (by simpa using hmissing.2 h1), if_neg (by simp [hpos.2 h3]),
        if_neg (by simpa using hunknown.2 h2)]
      exact ⟨_, rfl⟩
  refine ⟨hiff, ?_⟩
  intro hnot streets cands
  cases hcfg : _weight_config weights with
  | ok wm => exact absurd (hiff.1 ⟨wm, hcfg⟩) hnot
  | error e =>
      refine ⟨e, ?_⟩
      rw [_pass_8_finalisation, hcfg]

/-- Witness for C6: the full eight-type table loads; a one-key table makes
pass 8 fail. -/
theorem weight_config_exact_witness :
    (∃ wm, _weight_config exampleWeights = .ok wm) ∧
    (∃ e, _pass_8_finalisation [("names_postcode_feature", 1)] [] [] = .error e) :=
  ⟨(weight_config_exact exampleWeights).1.2 (by decide),
   (weight_config_exact [("names_postcode_feature", 1)]).2 (by decide) [] []⟩

end Postcodes

namespace Postcodes

/-! ## C2 — bundle-hash canonicalisation -/

theorem lookup_none_iff {α β : Type} [BEq α] [LawfulBEq α] {l : List (α × β)} {k : α} :
    l.lookup k = none ↔ k ∉ l.map Prod.fst := by
  induction l with
  | nil => simp
  | cons p l ih =>
      rw [List.lookup]
      cases hk : k == p.1 with
      | true =>
          have : k = p.1 := eq_of_beq hk
          simp [this]
      | false =>
          have : k ≠ p.1 := fun hc => by simp [hc] at hk
          simp [ih, this]

theorem lookup_of_mem_nodup {α β : Type} [BEq α] [LawfulBEq α] {l : List (α × β)}
    {k : α} {v : β} (hmem : (k, v) ∈ l) (hnd : (l.map Prod.fst).Nodup) :
    l.lookup k = some v := by
  induction l with
  | nil => cases hmem
  | cons p t ih =>
      rw [List.lookup]
      rcases List.mem_cons.1 hmem with rfl | ht
      · simp
      · cases hk : k == p.1 with
        | true =>
            have hkp : k = p.1 := eq_of_beq hk
            have : k ∈ t.map Prod.fst := List.mem_map.2 ⟨(k, v), ht, rfl⟩
            rw [List.map_cons, List.nodup_cons] at hnd
            exact absurd (hkp ▸ this) hnd.1
        | false => exact ih ht (by rw [List.map_cons, List.nodup_cons] at hnd; exact hnd.2)

theorem lookup_perm_eq {α β : Type} [BEq α] [LawfulBEq α] {l1 l2 : List (α × β)}
    (hperm : List.Perm l1 l2) (hnd : (l1.map Prod.fst).Nodup) (k : α) :
    l1.lookup k = l2.lookup k := by
  cases h1 : l1.lookup k with
  | none =>
      have : k ∉ l2.map Prod.fst := fun hc =>
        lookup_none_iff.1 h1 ((hperm.map Prod.fst).mem_iff.2 hc)
      exact (lookup_none_iff.2 this).symm
  | some v =>
      exact (lookup_of_mem_nodup (hperm.mem_iff.1 (lookup_mem h1))
        (((hperm.map Prod.fst).nodup_iff).1 hnd)).symm

theorem sortStrings_sorted (l : List String) : (sortStrings l).Sorted (· ≤ ·) :=
  List.sorted_mergeSort' l

theorem sortStrings_perm_eq {l1 l2 : List String} (h : List.Perm l1 l2) :
    sortStrings l1 = sortStrings l2 :=
  List.eq_of_perm_of_sorted
    (((l1.mergeSort_perm _).trans h).trans (l2.mergeSort_perm _).symm)
    (sortStrings_sorted l1) (sortStrings_sorted l2)

theorem lookup_map_snd {α β γ : Type} [BEq α] (l : List (α × β)) (f : β → γ) (k : α) :
    (l.map (fun kv => (kv.1, f kv.2))).lookup k = (l.lookup k).map f := by
  induction l with
  | nil => rfl
  | cons p t ih =>
      rw [List.map_cons, List.lookup, List.lookup]
      cases hk : k == p.1 with
      | true => simp
      | false => simpa using ih

theorem bundleHashPayload_eq_spec (build_profile : String)
    (r : List (String × List String)) :
    bundleHashPayload build_profile r = specCanonicalManifestJson build_profile r := by
  rw [bundleHashPayload, specCanonicalManifestJson]
  have h1 : (r.map (fun kv => (kv.1, sortStrings kv.2))).map Prod.fst = r.map Prod.fst := by
    rw [List.map_map]
    rfl
  have h2 : ∀ k, ((r.map (fun kv => (kv.1, sortStrings kv.2))).lookup k).getD [] =
      sortStrings ((r.lookup k).getD []) := by
    intro k
    rw [lookup_map_snd]
    cases r.lookup k with
    | none =>
        show ([] : List String) = sortStrings []
        simp [sortStrings]
    | some v => rfl
  rw [h1]
  have h3 : (sortStrings (r.map Prod.fst)).map (fun k =>
        jsonString k ++ ":" ++
          jsonStringList (((r.map (fun kv => (kv.1, sortStrings kv.2))).lookup k).getD [])) =
      (sortStrings (r.map Prod.fst)).map (fun k =>
        jsonString k ++ ":" ++ jsonStringList (sortStrings ((r.lookup k).getD []))) :=
    List.map_congr_left (fun k _ => by rw [h2 k])
  rw [h3]

theorem bundleHashPayload_perm_eq {build_profile : String}
    {r1 r2 : List (String × List String)}
    (hnd : (r1.map Prod.fst).Nodup)
    (hperm : List.Perm (r1.map (fun kv => (kv.1, sortStrings kv.2)))
      (r2.map (fun kv => (kv.1, sortStrings kv.2)))) :
    bundleHashPayload build_profile r1 = bundleHashPayload build_profile r2 := by
  rw [bundleHashPayload, bundleHashPayload]
  have hnd1 : ((r1.map (fun kv => (kv.1, sortStrings kv.2))).map Prod.fst).Nodup := by
    rw [List.map_map]
    exact hnd
  have hkeys : sortStrings ((r1.map (fun kv => (kv.1, sortStrings kv.2))).map Prod.fst) =
      sortStrings ((r2.map (fun kv => (kv.1, sortStrings kv.2))).map Prod.fst) :=
    sortStrings_perm_eq (hperm.map Prod.fst)
  have hlk : ∀ k, ((r1.map (fun kv => (kv.1, sortStrings kv.2))).lookup k) =
      ((r2.map (fun kv => (kv.1, sortStrings kv.2))).lookup k) :=
    lookup_perm_eq hperm hnd1
  rw [hkeys]
  have h3 : (sortStrings ((r2.map (fun kv => (kv.1, sortStrings kv.2))).map Prod.fst)).map
        (fun k => jsonString k ++ ":" ++
          jsonStringList (((r1.map (fun kv => (kv.1, sortStrings kv.2))).lookup k).getD [])) =
      (sortStrings ((r2.map (fun kv => (kv.1, sortStrings kv.2))).map Prod.fst)).map
        (fun k => jsonString k ++ ":" ++
          jsonStringList (((r2.map (fun kv => (kv.1, sortStrings kv.2))).lookup k).getD [])) :=
    List.map_congr_left (fun k _ => by rw [hlk k])
  rw [h3]

/-- C2: `bundle_hash` is the SHA-256 hex digest of the compact ASCII JSON
encoding of `{build_profile, source_runs}` with `source_runs` keys sorted
lexicographically and each run list sorted; consequently reordering the keys
of `source_runs` or permuting any slot's run list leaves the hash unchanged. -/
theorem bundle_hash_canonical (build_profile : String)
    (r1 r2 : List (String × List String))
    (hnd : (r1.map Prod.fst).Nodup)
    (hperm : List.Perm (r1.map (fun kv => (kv.1, sortStrings kv.2)))
      (r2.map (fun kv => (kv.1, sortStrings kv.2)))) :
    _bundle_hash build_profile r1 =
      sha256hex (utf8Bytes (specCanonicalManifestJson build_profile r1)) ∧
    _bundle_hash build_profile r1 = _bundle_hash build_profile r2 := by
  constructor
  · rw [_bundle_hash, bundleHashPayload_eq_spec]
  · rw [_bundle_hash, _bundle_hash, bundleHashPayload_perm_eq hnd hperm]

end Postcodes

namespace Postcodes

/-! Witness for C2 at a concrete manifest: reordering the keys and permuting a
slot's run list leaves the hash unchanged. -/
unseal String.ltb List.merge List.mergeSort in
theorem bundle_hash_canonical_witness :
    _bundle_hash "gb_core" [("b", ["2", "1"]), ("a", ["x"])] =
      sha256hex (utf8Bytes
        (specCanonicalManifestJson "gb_core" [("b", ["2", "1"]), ("a", ["x"])])) ∧
    _bundle_hash "gb_core" [("b", ["2", "1"]), ("a", ["x"])] =
      _bundle_hash "gb_core" [("a", ["x"]), ("b", ["1", "2"])] :=
  bundle_hash_canonical "gb_core" [("b", ["2", "1"]), ("a", ["x"])]
    [("a", ["x"]), ("b", ["1", "2"])] (by decide) (by decide)

end Postcodes

namespace Postcodes

/-! ## C3/C4 — bundle creation lemmas -/

theorem create_build_bundle_existing {db : MetaDb} {f : String} {m : BuildBundleManifest}
    {row : BundleRow}
    (hfind : db.build_bundle.find? (fun b =>
        b.build_profile = m.build_profile ∧
        b.bundle_hash = _bundle_hash m.build_profile m.source_runs) = some row) :
    create_build_bundle db f m =
      .ok (db, ⟨row.bundle_id, "existing", _bundle_hash m.build_profile m.source_runs⟩) := by
  simp only [create_build_bundle]
  rw [hfind]

theorem create_build_bundle_created {db : MetaDb} {f : String} {m : BuildBundleManifest}
    {required : List String}
    (hfind : db.build_bundle.find? (fun b =>
        b.build_profile = m.build_profile ∧
        b.bundle_hash = _bundle_hash m.build_profile m.source_runs) = none)
    (hreq : BUILD_PROFILES.lookup m.build_profile = some required)
    (hmiss : (sortStrings required).filter (fun s => (m.source_runs.lookup s).isNone) = [])
    (hval : (sortStrings required).findSome?
        (fun s => validateSource db s ((m.source_runs.lookup s).getD [])) = none) :
    create_build_bundle db f m =
      .ok
        ({ db with
            build_bundle := db.build_bundle ++
              [⟨f, m.build_profile, _bundle_hash m.build_profile m.source_runs, "created"⟩]
            build_bundle_source := db.build_bundle_source ++
              m.source_runs.flatMap (fun kv =>
                kv.2.map (fun rid => BundleSourceRow.mk f kv.1 rid)) },
          ⟨f, "created", _bundle_hash m.build_profile m.source_runs⟩) := by
  simp only [create_build_bundle]
  rw [hfind]
  dsimp only
  rw [hreq]
  dsimp only
  rw [if_neg (by simp [hmiss]), hval]

theorem create_build_bundle_ok_created_inv {db : MetaDb} {f : String}
    {m : BuildBundleManifest} {db1 : MetaDb} {r1 : BuildBundleResult}
    (h : create_build_bundle db f m = .ok (db1, r1)) (hst : r1.status = "created") :
    db.build_bundle.find? (fun b =>
        b.build_profile = m.build_profile ∧
        b.bundle_hash = _bundle_hash m.build_profile m.source_runs) = none ∧
    db1.build_bundle = db.build_bundle ++
      [⟨f, m.build_profile, _bundle_hash m.build_profile m.source_runs, "created"⟩] ∧
    r1 = ⟨f, "created", _bundle_hash m.build_profile m.source_runs⟩ := by
  simp only [create_build_bundle] at h
  cases hfind : db.build_bundle.find? (fun b =>
      b.build_profile = m.build_profile ∧
      b.bundle_hash = _bundle_hash m.build_profile m.source_runs) with
  | some row =>
      rw [hfind] at h
      dsimp only at h
      cases h
      simp at hst
  | none =>
      rw [hfind] at h
      dsimp only at h
      cases hreq : BUILD_PROFILES.lookup m.build_profile with
      | none =>
          rw [hreq] at h
          dsimp only at h
          cases h
      | some required =>
          rw [hreq] at h
          dsimp only at h
          split_ifs at h
          cases hval : (sortStrings required).findSome?
              (fun s => validateSource db s ((m.source_runs.lookup s).getD [])) with
          | some e =>
              rw [hval] at h
              dsimp only at h
              cases h
          | none =>
              rw [hval] at h
              dsimp only at h
              refine ⟨rfl, ?_, ?_⟩
              · exact (congrArg (fun p => p.1.build_bundle) (Except.ok.inj h)).symm
              · exact (congrArg Prod.snd (Except.ok.inj h)).symm

/-- C3: bundle creation is idempotent per manifest: an existing
`(build_profile, bundle_hash)` row is returned as `existing` with nothing
inserted; with no such row and passing validation a new bundle row is
inserted and returned as `created`; and a second call with the same manifest
returns the first call's bundle id with status `existing`, changing nothing. -/
theorem create_build_bundle_idempotent (db : MetaDb) (f1 f2 : String)
    (m : BuildBundleManifest) :
    (∀ row, db.build_bundle.find? (fun b =>
        b.build_profile = m.build_profile ∧
        b.bundle_hash = _bundle_hash m.build_profile m.source_runs) = some row →
      create_build_bundle db f1 m =
        .ok (db, ⟨row.bundle_id, "existing", _bundle_hash m.build_profile m.source_runs⟩)) ∧
    (∀ required,
      db.build_bundle.find? (fun b =>
        b.build_profile = m.build_profile ∧
        b.bundle_hash = _bundle_hash m.build_profile m.source_runs) = none →
      BUILD_PROFILES.lookup m.build_profile = some required →
      (sortStrings required).filter (fun s => (m.source_runs.lookup s).isNone) = [] →
      (sortStrings required).findSome?
          (fun s => validateSource db s ((m.source_runs.lookup s).getD [])) = none →
      create_build_bundle db f1 m =
        .ok
          ({ db with
              build_bundle := db.build_bundle ++
                [⟨f1, m.build_profile, _bundle_hash m.build_profile m.source_runs, "created"⟩]
              build_bundle_source := db.build_bundle_source ++
                m.source_runs.flatMap (fun kv =>
                  kv.2.map (fun rid => BundleSourceRow.mk f1 kv.1 rid)) },
            ⟨f1, "created", _bundle_hash m.build_profile m.source_runs⟩)) ∧
    (∀ db1 r1, create_build_bundle db f1 m = .ok (db1, r1) → r1.status = "created" →
      create_build_bundle db1 f2 m =
        .ok (db1, ⟨r1.bundle_id, "existing", r1.bundle_hash⟩)) := by
  refine ⟨fun row hfind => create_build_bundle_existing hfind,
    fun required hfind hreq hmiss hval =>
      create_build_bundle_created hfind hreq hmiss hval,
    fun db1 r1 h hst => ?_⟩
  obtain ⟨hfind, hbb, hr1⟩ := create_build_bundle_ok_created_inv h hst
  have hfind1 : db1.build_bundle.find? (fun b =>
      b.build_profile = m.build_profile ∧
      b.bundle_hash = _bundle_hash m.build_profile m.source_runs) =
      some ⟨f1, m.build_profile, _bundle_hash m.build_profile m.source_runs, "created"⟩ := by
    rw [hbb, List.find?_append, hfind]
    simp
  have := create_build_bundle_existing (f := f2) hfind1
  rw [this, hr1]

end Postcodes

namespace Postcodes

/-! ## C4 — validation covers required sources only -/

theorem validateRuns_isSome {db : MetaDb} {source run : String} {runs : List String}
    (hr : run ∈ runs)
    (hbad : ∀ ir, db.ingest_run.find? (fun x => x.run_id = run) = some ir →
      ir.source_name ≠ source) :
    ∃ e, validateRuns db source runs = some e := by
  induction runs with
  | nil => cases hr
  | cons r rest ih =>
      rw [validateRuns]
      cases hfind : db.ingest_run.find? (fun x => x.run_id = r) with
      | none => exact ⟨_, rfl⟩
      | some ir =>
          dsimp only
          split_ifs with hne
          · exact ⟨_, rfl⟩
          · rcases List.mem_cons.1 hr with rfl | hrest
            · exact absurd (not_not.1 hne) (hbad ir hfind)
            · exact ih hrest

theorem validateSource_isSome {db : MetaDb} {source run : String} {runs : List String}
    (hr : run ∈ runs)
    (hbad : ∀ ir, db.ingest_run.find? (fun x => x.run_id = run) = some ir →
      ir.source_name ≠ source) :
    ∃ e, validateSource db source runs = some e := by
  rw [validateSource]
  cases hcard : (if source = "ppd" then
      if runs.length = 0 then some "Bundle must include at least one ppd ingest run"
      else none
    else
      if runs.length ≠ 1 then
        some ("Source " ++ source ++ " must map to exactly one ingest run in a bundle")
      else none) with
  | some e => exact ⟨e, rfl⟩
  | none => exact validateRuns_isSome hr hbad

theorem findSome?_isSome_of_mem {α β : Type} {l : List α} {x : α} {f : α → Option β}
    (hx : x ∈ l) (hf : ∃ e, f x = some e) : ∃ e, l.findSome? f = some e := by
  induction l with
  | nil => cases hx
  | cons a t ih =>
      rw [List.findSome?]
      cases ha : f a with
      | some b => exact ⟨b, rfl⟩
      | none =>
          rcases List.mem_cons.1 hx with rfl | ht
          · obtain ⟨e, he⟩ := hf
            rw [ha] at he
            cases he
          · exact ih ht

/-- C4 amended: when no `(profile, hash)` row exists, bundle creation fails for
every ingest run listed under a source **required by the build profile** that
is missing from the ingest metadata or recorded under a different source; the
error aborts the call before any insert.  (Runs of listed sources outside the
profile are not validated — see the counterexample.) -/
theorem create_build_bundle_required_validation
    {db : MetaDb} {f : String} {m : BuildBundleManifest} {required : List String}
    {source run : String}
    (hfind : db.build_bundle.find? (fun b =>
        b.build_profile = m.build_profile ∧
        b.bundle_hash = _bundle_hash m.build_profile m.source_runs) = none)
    (hreq : BUILD_PROFILES.lookup m.build_profile = some required)
    (hs : source ∈ required)
    (hr : run ∈ (m.source_runs.lookup source).getD [])
    (hbad : ∀ ir, db.ingest_run.find? (fun x => x.run_id = run) = some ir →
      ir.source_name ≠ source) :
    ∃ e, create_build_bundle db f m = .error e := by
  simp only [create_build_bundle]
  rw [hfind]
  dsimp only
  rw [hreq]
  dsimp only
  split_ifs with hmiss
  · exact ⟨_, rfl⟩
  · have hs' : source ∈ sortStrings required :=
      ((required.mergeSort_perm _).mem_iff).2 hs
    obtain ⟨e, he⟩ := findSome?_isSome_of_mem
      (f := fun s => validateSource db s ((m.source_runs.lookup s).getD []))
      hs' (validateSource_isSome hr hbad)
    rw [he]
    exact ⟨e, rfl⟩

/-! C4 counterexample: with profile `gb_core`, a manifest listing the
non-required source `ppd` with an ingest run id absent from the metadata is
accepted (`created`), and the unvalidated bundle-source row is inserted —
refuting the claim that validation covers every listed source. -/
unseal String.ltb List.merge List.mergeSort in
theorem create_build_bundle_extra_source_refuted :
    ((create_build_bundle exMetaDb "B1" exManifestExtra).toOption.map (fun p =>
      (p.2.status,
       p.1.build_bundle_source.any (fun s =>
         decide (s.source_name = "ppd") && decide (s.ingest_run_id = "bad-run"))))) =
      some ("created", true) ∧
    exMetaDb.ingest_run.all (fun ir => decide (ir.run_id ≠ "bad-run")) = true ∧
    ("ppd" ∈ (BUILD_PROFILES.lookup "gb_core").getD []) = False := by
  refine ⟨?_, by decide, by simp [BUILD_PROFILES]⟩
  have h := @create_build_bundle_created exMetaDb "B1" exManifestExtra
    ["onspd", "os_open_usrn", "os_open_names", "os_open_roads",
      "os_open_uprn", "os_open_lids", "nsul"]
    (by decide) (by decide) (by decide) (by decide)
  rw [h]
  rfl

/-! Witness for the amended C4: a required source (`onspd`) pointing at an
unknown ingest run makes the call fail. -/
unseal String.ltb List.merge List.mergeSort in
theorem create_build_bundle_required_validation_witness :
    exceptIsOk (create_build_bundle exMetaDb "B1" exManifestBadRequired) = false := by
  obtain ⟨e, he⟩ := @create_build_bundle_required_validation
    exMetaDb "B1" exManifestBadRequired
    ["onspd", "os_open_usrn", "os_open_names", "os_open_roads",
      "os_open_uprn", "os_open_lids", "nsul"]
    "onspd" "bad-run"
    (by decide) (by decide) (by decide) (by decide) (by decide)
  rw [he]
  rfl

/-! Witness for C3: on `exMetaDb`, the first call creates bundle `B1`, the
second returns it as `existing` without change. -/
unseal String.ltb List.merge List.mergeSort in
theorem create_build_bundle_idempotent_witness :
    (∀ db1 r1, create_build_bundle exMetaDb "B1" exManifest = .ok (db1, r1) →
      r1.status = "created" →
      create_build_bundle db1 "B2" exManifest =
        .ok (db1, ⟨r1.bundle_id, "existing", r1.bundle_hash⟩)) ∧
    create_build_bundle exMetaDb "B1" exManifest =
      .ok
        ({ exMetaDb with
            build_bundle :=
              [⟨"B1", "gb_core", _bundle_hash "gb_core" exSourceRuns, "created"⟩]
            build_bundle_source :=
              exSourceRuns.flatMap (fun kv =>
                kv.2.map (fun rid => BundleSourceRow.mk "B1" kv.1 rid)) },
        ⟨"B1", "created", _bundle_hash "gb_core" exSourceRuns⟩) := by
  constructor
  · exact (create_build_bundle_idempotent exMetaDb "B1" "B2" exManifest).2.2
  · have h := (create_build_bundle_idempotent exMetaDb "B1" "B2" exManifest).2.1
      ["onspd", "os_open_usrn", "os_open_names", "os_open_roads", "os_open_uprn",
       "os_open_lids", "nsul"]
      (by decide) (by decide) (by decide) (by decide)
    exact h

end Postcodes

namespace Postcodes

set_option maxRecDepth 8192 in
/-- C7: pass 3 promotion is append-only and lineaged: every base
`names_postcode_feature` candidate whose evidence TOID appears in
`stage.oli_toid_usrn` stays untouched and gains a new `oli_toid_usrn` child
candidate of confidence `high`, linked by a `promotion_toid_usrn` lineage edge
from that base candidate — and that edge is the only lineage edge of the
child. -/
theorem pass3_append_only_promotion
    (postcodes : List PostcodeRow) (names : List OpenNamesRow)
    (oli : List OliToidUsrnRow) (st : CandidateDb)
    (hlin : ∀ e ∈ st.lineage, e.2.1 < st.nextId) :
    (∃ tail, (_pass_3_open_names_candidates postcodes names oli st).candidates =
      st.candidates ++ tail) ∧
    (∀ parent ∈ (pass3Base postcodes names st).candidates,
      parent ∈ (_pass_3_open_names_candidates postcodes names oli st).candidates) ∧
    (∀ parent ∈ (pass3Base postcodes names st).candidates,
      parent.candidate_type = "names_postcode_feature" →
      ∀ t, parent.toid = some t → t ∈ oli.map (fun o => o.toid) →
      ∃ child ∈ (_pass_3_open_names_candidates postcodes names oli st).candidates,
        child.candidate_type = "oli_toid_usrn" ∧
        child.confidence = "high" ∧
        child.postcode = parent.postcode ∧
        (parent.candidate_id, child.candidate_id, "promotion_toid_usrn") ∈
          (_pass_3_open_names_candidates postcodes names oli st).lineage ∧
        ((_pass_3_open_names_candidates postcodes names oli st).lineage.countP
          (fun e => e.2.1 = child.candidate_id)) = 1) := by
  refine ⟨⟨_, List.append_assoc _ _ _⟩, fun parent hpar => List.mem_append_left _ hpar,
    ?_⟩
  intro parent hpar htype t htoid htin
  have hparf : parent ∈ (pass3Base postcodes names st).candidates.filter (fun c =>
      c.candidate_type = "names_postcode_feature" ∧ c.toid.isSome) :=
    List.mem_filter.2 ⟨hpar, by simp [htype, htoid]⟩
  have hpars : parent ∈ ((pass3Base postcodes names st).candidates.filter (fun c =>
      c.candidate_type = "names_postcode_feature" ∧ c.toid.isSome)).mergeSort
      (fun a b => decide (a.candidate_id ≤ b.candidate_id)) :=
    ((List.mergeSort_perm _ _).mem_iff).2 hparf
  obtain ⟨o, ho, hot⟩ := List.mem_map.1 htin
  have homem : o ∈ (oli.filter (fun x => some x.toid = parent.toid)).mergeSort
      (fun a b => decide (a.usrn ≤ b.usrn)) :=
    ((List.mergeSort_perm _ _).mem_iff).2
      (List.mem_filter.2 ⟨ho, by simp [htoid, hot]⟩)
  have hprom : (parent, o) ∈ pass3PromotionRows oli (pass3Base postcodes names st) :=
    List.mem_flatMap.2 ⟨parent, hpars, List.mem_map.2 ⟨o, homem, rfl⟩⟩
  obtain ⟨i, hi⟩ := List.mem_iff_get?.1 hprom
  have hilt : i < (pass3PromotionRows oli (pass3Base postcodes names st)).length :=
    List.get?_eq_some.1 hi |>.choose
  have henum : (i, (parent, o)) ∈
      (pass3PromotionRows oli (pass3Base postcodes names st)).enum :=
    List.mk_mem_enum_iff_get?.mpr hi
  refine ⟨pass3Child (parent, o) ((pass3Base postcodes names st).nextId + i),
    List.mem_append_right _ (List.mem_map.2 ⟨(i, (parent, o)), henum, rfl⟩),
    rfl, rfl, rfl, List.mem_append_right _ (List.mem_map.2 ⟨(i, (parent, o)), henum, rfl⟩),
    ?_⟩
  have hsplit : ((_pass_3_open_names_candidates postcodes names oli st).lineage.countP
      (fun e => e.2.1 = (pass3Child (parent, o)
        ((pass3Base postcodes names st).nextId + i)).candidate_id)) =
      st.lineage.countP (fun e =>
        e.2.1 = (pass3Base postcodes names st).nextId + i) +
      ((pass3PromotionRows oli (pass3Base postcodes names st)).enum.map (fun ip =>
        ((ip.2.1.candidate_id, (pass3Base postcodes names st).nextId + ip.1,
          "promotion_toid_usrn") : Nat × Nat × String))).countP (fun e =>
        e.2.1 = (pass3Base postcodes names st).nextId + i) :=
    List.countP_append _ _ _
  rw [hsplit]
  have hzero : st.lineage.countP (fun e =>
      e.2.1 = (pass3Base postcodes names st).nextId + i) = 0 := by
    refine List.countP_eq_zero.2 fun e he => ?_
    have := hlin e he
    have hge : st.nextId ≤ (pass3Base postcodes names st).nextId := Nat.le_add_right _ _
    simp only [decide_eq_true_eq]
    omega
  have hone : ((pass3PromotionRows oli (pass3Base postcodes names st)).enum.map (fun ip =>
      ((ip.2.1.candidate_id, (pass3Base postcodes names st).nextId + ip.1,
        "promotion_toid_usrn") : Nat × Nat × String))).countP (fun e =>
      e.2.1 = (pass3Base postcodes names st).nextId + i) = 1 := by
    rw [List.countP_map]
    have hcongr : ((pass3PromotionRows oli (pass3Base postcodes names st)).enum.countP
        (fun ip => decide ((pass3Base postcodes names st).nextId + ip.1 =
          (pass3Base postcodes names st).nextId + i))) =
        ((pass3PromotionRows oli (pass3Base postcodes names st)).enum.countP
          (fun ip => decide (ip.1 = i))) := by
      refine List.countP_congr fun ip _ => ?_
      simp only [decide_eq_true_eq]
      omega
    show ((pass3PromotionRows oli (pass3Base postcodes names st)).enum.countP
        (fun ip => decide ((pass3Base postcodes names st).nextId + ip.1 =
          (pass3Base postcodes names st).nextId + i))) = 1
    rw [hcongr]
    have hfst : ((pass3PromotionRows oli (pass3Base postcodes names st)).enum.map
        Prod.fst).countP (fun n => decide (n = i)) =
        ((pass3PromotionRows oli (pass3Base postcodes names st)).enum.countP
          (fun ip => decide (ip.1 = i))) := List.countP_map _ _ _
    rw [← hfst, List.enum_map_fst]
    have : (List.range (pass3PromotionRows oli
        (pass3Base postcodes names st)).length).countP (fun n => decide (n = i)) =
        (List.range (pass3PromotionRows oli
          (pass3Base postcodes names st)).length).count i := by
      refine List.countP_congr fun n _ => ?_
      simp only [decide_eq_true_eq, beq_iff_eq]
    rw [this]
    exact List.count_eq_one_of_mem (List.nodup_range _) (List.mem_range.2 hilt)
  rw [hzero, hone]

end Postcodes

namespace Postcodes

/-! Witness for C7: the specification's scenario — one base candidate carrying
TOID `OSGB123` and one matching `oli_toid_usrn` row yield a promoted child
with exactly one lineage edge, while the base row survives. -/
unseal String.ltb List.merge List.mergeSort in
theorem pass3_append_only_promotion_witness :
    ∃ child ∈ (_pass_3_open_names_candidates [⟨"AA1 1AA", none⟩]
        [⟨"f1", some "AA11AA", "Main Street", "MAIN STREET", some "OSGB123", "run-names"⟩]
        [⟨"OSGB123", 10000001, "run-lids"⟩] ⟨0, [], []⟩).candidates,
      child.candidate_type = "oli_toid_usrn" ∧
      child.confidence = "high" ∧
      child.postcode = (pass3BaseCand
        (⟨"f1", some "AA11AA", "Main Street", "MAIN STREET", some "OSGB123", "run-names"⟩,
         ⟨"AA1 1AA", none⟩) 0).postcode ∧
      ((pass3BaseCand
        (⟨"f1", some "AA11AA", "Main Street", "MAIN STREET", some "OSGB123", "run-names"⟩,
         ⟨"AA1 1AA", none⟩) 0).candidate_id, child.candidate_id,
        "promotion_toid_usrn") ∈
        (_pass_3_open_names_candidates [⟨"AA1 1AA", none⟩]
          [⟨"f1", some "AA11AA", "Main Street", "MAIN STREET", some "OSGB123", "run-names"⟩]
          [⟨"OSGB123", 10000001, "run-lids"⟩] ⟨0, [], []⟩).lineage ∧
      ((_pass_3_open_names_candidates [⟨"AA1 1AA", none⟩]
          [⟨"f1", some "AA11AA", "Main Street", "MAIN STREET", some "OSGB123", "run-names"⟩]
          [⟨"OSGB123", 10000001, "run-lids"⟩] ⟨0, [], []⟩).lineage.countP
        (fun e => e.2.1 = child.candidate_id)) = 1 :=
  (pass3_append_only_promotion [⟨"AA1 1AA", none⟩]
      [⟨"f1", some "AA11AA", "Main Street", "MAIN STREET", some "OSGB123", "run-names"⟩]
      [⟨"OSGB123", 10000001, "run-lids"⟩] ⟨0, [], []⟩ (by decide)).2.2
    (pass3BaseCand
      (⟨"f1", some "AA11AA", "Main Street", "MAIN STREET", some "OSGB123", "run-names"⟩,
       ⟨"AA1 1AA", none⟩) 0)
    (by decide) rfl "OSGB123" rfl (by decide)

end Postcodes

namespace Postcodes

/-- C8: every candidate added by pass 6's DFI fallback statement targets a
`GB-NIR` postcode that has no candidate row at all after the direct OSNI
insert (so a postcode that just received an `osni_gazetteer_direct` candidate
gets no fallback), has type `spatial_dfi_highway` and confidence `low`, and is
built from the matching `dfi_road_segment` with the lowest `segment_id`. -/
theorem pass6_dfi_fallback_only_uncovered (postcodes : List PostcodeRow)
    (osni : List OsniRow) (dfi : List DfiRow) (st : CandidateDb) :
    ∀ c ∈ (_pass_6_ni_candidates postcodes osni dfi st).candidates,
      c ∉ (pass6Direct postcodes osni st).candidates →
      (c.candidate_type = "spatial_dfi_highway" ∧ c.confidence = "low") ∧
      (∃ p ∈ postcodes, p.postcode = c.postcode ∧
        p.subdivision_code = some "GB-NIR") ∧
      (∀ c' ∈ (pass6Direct postcodes osni st).candidates,
        c'.postcode ≠ c.postcode) ∧
      (∃ d ∈ dfi, d.postcode_norm = some (stripSpaces c.postcode) ∧
        c.evidence_ref = "spatial:dfi_highway:" ++ d.segment_id ++ ":fallback" ∧
        c.street_name_raw = d.street_name_raw ∧
        ∀ d' ∈ dfi, d'.postcode_norm = some (stripSpaces c.postcode) →
          d.segment_id ≤ d'.segment_id) := by
  intro c hc hnot
  rcases List.mem_append.1 hc with hleft | hright
  · exact absurd hleft hnot
  obtain ⟨⟨i, pd⟩, henum, rfl⟩ := List.mem_map.1 hright
  have hpd : pd ∈ pass6FallbackRows postcodes dfi (pass6Direct postcodes osni st) :=
    List.get?_mem (List.mk_mem_enum_iff_get?.mp henum)
  rw [pass6FallbackRows] at hpd
  obtain ⟨pc, hpc, hmap⟩ := List.mem_filterMap.1 hpd
  obtain ⟨d, hhead, hpdeq⟩ := Option.map_eq_some'.1 hmap
  cases hpdeq
  have hpcmem : pc ∈ ((postcodes.filter (fun p =>
      p.subdivision_code = some "GB-NIR" ∧
      (pass6Direct postcodes osni st).candidates.all
        (fun c => c.postcode ≠ p.postcode))).map (fun p => p.postcode)).dedup :=
    ((List.mergeSort_perm _ _).mem_iff).1 hpc
  rw [List.mem_dedup] at hpcmem
  obtain ⟨p, hpfil, hppc⟩ := List.mem_map.1 hpcmem
  have hpcond := List.of_mem_filter hpfil
  simp only [decide_eq_true_eq, Bool.and_eq_true, decide_eq_true_eq] at hpcond
  have hsub : p.subdivision_code = some "GB-NIR" := hpcond.1
  have hnone : ∀ c' ∈ (pass6Direct postcodes osni st).candidates,
      c'.postcode ≠ p.postcode := by
    intro c' hc'
    have := List.all_eq_true.1 hpcond.2 c' hc'
    simpa using this
  have htrans : ∀ a b c : DfiRow, (decide (a.segment_id ≤ b.segment_id)) = true →
      (decide (b.segment_id ≤ c.segment_id)) = true →
      (decide (a.segment_id ≤ c.segment_id)) = true := by
    intro a b c h1 h2
    simp only [decide_eq_true_eq] at h1 h2 ⊢
    exact le_trans h1 h2
  have htotal : ∀ a b : DfiRow, (decide (a.segment_id ≤ b.segment_id) ||
      decide (b.segment_id ≤ a.segment_id)) = true := by
    intro a b
    simpa using le_total a.segment_id b.segment_id
  have hsorted := List.sorted_mergeSort htrans htotal
    (dfi.filter (fun x => x.postcode_norm = some (stripSpaces pc)))
  have hdmem : d ∈ (dfi.filter (fun x =>
      x.postcode_norm = some (stripSpaces pc))).mergeSort
      (fun a b => decide (a.segment_id ≤ b.segment_id)) :=
    List.mem_of_mem_head? hhead
  have hdfil : d ∈ dfi.filter (fun x => x.postcode_norm = some (stripSpaces pc)) :=
    ((List.mergeSort_perm _ _).mem_iff).1 hdmem
  have hdnorm : d.postcode_norm = some (stripSpaces pc) := by
    have := List.of_mem_filter hdfil
    simpa using this
  have hmin : ∀ d' ∈ dfi, d'.postcode_norm = some (stripSpaces pc) →
      d.segment_id ≤ d'.segment_id := by
    intro d' hd' hd'norm
    have hd'fil : d' ∈ dfi.filter (fun x => x.postcode_norm = some (stripSpaces pc)) :=
      List.mem_filter.2 ⟨hd', by simp [hd'norm]⟩
    have hd'sorted : d' ∈ (dfi.filter (fun x =>
        x.postcode_norm = some (stripSpaces pc))).mergeSort
        (fun a b => decide (a.segment_id ≤ b.segment_id)) :=
      ((List.mergeSort_perm _ _).mem_iff).2 hd'fil
    cases hlist : (dfi.filter (fun x =>
        x.postcode_norm = some (stripSpaces pc))).mergeSort
        (fun a b => decide (a.segment_id ≤ b.segment_id)) with
    | nil =>
        rw [hlist] at hd'sorted
        cases hd'sorted
    | cons dh dt =>
        have hdh : dh = d := by
          rw [hlist] at hhead
          cases hhead
          rfl
        subst hdh
        rw [hlist] at hd'sorted
        rcases List.mem_cons.1 hd'sorted with rfl | hd'tail
        · exact le_refl _
        · have hpair := hsorted
          rw [hlist] at hpair
          have := (List.pairwise_cons.1 hpair).1 d' hd'tail
          simpa using this
  refine ⟨⟨rfl, rfl⟩, ⟨p, List.mem_of_mem_filter hpfil, hppc, hsub⟩, ?_, ?_⟩
  · intro c' hc'
    have := hnone c' hc'
    rw [hppc] at this
    exact this
  · exact ⟨d, List.mem_of_mem_filter hdfil, hdnorm, rfl, rfl, hmin⟩

end Postcodes

namespace Postcodes

/-! Witness for C8: `BT1 1AA` receives the OSNI direct candidate and is
suppressed from the fallback; `BT2 2BB` has no candidate and receives the DFI
fallback built from its lowest matching segment. -/
unseal String.ltb List.merge List.mergeSort in
theorem pass6_dfi_fallback_only_uncovered_witness :
    ((pass6FallbackCand
        ("BT2 2BB", ⟨"seg2", some "BT22BB", "Main Street", "MAIN STREET", "run-dfi"⟩)
        1).candidate_type = "spatial_dfi_highway" ∧
      (pass6FallbackCand
        ("BT2 2BB", ⟨"seg2", some "BT22BB", "Main Street", "MAIN STREET", "run-dfi"⟩)
        1).confidence = "low") ∧
    (∃ p ∈ exNiPostcodes, p.postcode = "BT2 2BB" ∧
      p.subdivision_code = some "GB-NIR") ∧
    (∀ c' ∈ (pass6Direct exNiPostcodes exOsni ⟨0, [], []⟩).candidates,
      c'.postcode ≠ "BT2 2BB") ∧
    (∃ d ∈ exDfi, d.postcode_norm = some (stripSpaces "BT2 2BB") ∧
      "spatial:dfi_highway:seg2:fallback" =
        "spatial:dfi_highway:" ++ d.segment_id ++ ":fallback" ∧
      "Main Street" = d.street_name_raw ∧
      ∀ d' ∈ exDfi, d'.postcode_norm = some (stripSpaces "BT2 2BB") →
        d.segment_id ≤ d'.segment_id) ∧
    (_pass_6_ni_candidates exNiPostcodes exOsni exDfi ⟨0, [], []⟩).candidates.all
      (fun c => !(decide (c.candidate_type = "spatial_dfi_highway") &&
        decide (c.postcode = "BT1 1AA"))) = true := by
  have h := pass6_dfi_fallback_only_uncovered exNiPostcodes exOsni exDfi ⟨0, [], []⟩
    (pass6FallbackCand
      ("BT2 2BB", ⟨"seg2", some "BT22BB", "Main Street", "MAIN STREET", "run-dfi"⟩) 1)
    (by decide) (by decide)
  exact ⟨h.1, h.2.1, h.2.2.1, h.2.2.2, by decide⟩

end Postcodes

namespace Postcodes

/-! ## C9 — publish validation and idempotence -/

theorem publish_build_ok_inv {db : PublishDb} {rid actor : String} {now txid : Nat}
    {db' : PublishDb} {res : PublishResult}
    (h : publish_build db rid actor now txid = .ok (db', res)) :
    ∃ run, db.build_run.find? (fun r => r.build_run_id = rid) = some run ∧
      (run.status = "built" ∨ run.status = "published") ∧
      ("api.postcode_lookup__" ++ _safe_version_suffix run.dataset_version) ∈
        db.api_tables ∧
      ("api.postcode_street_lookup__" ++ _safe_version_suffix run.dataset_version) ∈
        db.api_tables ∧
      db' =
        { db with
            lookup_alias := some ("api.postcode_lookup__" ++
              _safe_version_suffix run.dataset_version)
            street_alias := some ("api.postcode_street_lookup__" ++
              _safe_version_suffix run.dataset_version)
            dataset_publication := upsertPub db.dataset_publication
              ⟨run.dataset_version, rid, now, actor,
               "api.postcode_lookup__" ++ _safe_version_suffix run.dataset_version,
               "api.postcode_street_lookup__" ++ _safe_version_suffix run.dataset_version,
               txid⟩
            build_run := db.build_run.map (fun r =>
              if r.build_run_id = rid then
                { r with
                    status := "published"
                    current_pass := "published"
                    finished_at_utc := some (r.finished_at_utc.getD now) }
              else r)
            build_bundle_status := db.build_bundle_status.map (fun bs =>
              if bs.1 = run.bundle_id then (bs.1, "published") else bs) } ∧
      res = ⟨rid, run.dataset_version, "published"⟩ := by
  simp only [publish_build] at h
  cases hfind : db.build_run.find? (fun r => r.build_run_id = rid) with
  | none =>
      rw [hfind] at h
      cases h
  | some run =>
      rw [hfind] at h
      dsimp only at h
      split_ifs at h with hstat htab
      have hp := Except.ok.inj h
      refine ⟨run, rfl, ?_, ?_, ?_, ?_, ?_⟩
      · rcases not_and_or.1 hstat with h1 | h1
        · exact Or.inl (not_not.1 h1)
        · exact Or.inr (not_not.1 h1)
      · exact htab.1
      · exact htab.2
      · exact (congrArg Prod.fst hp).symm
      · exact (congrArg Prod.snd hp).symm

theorem upsertPub_mem_dv {pubs : List PublicationRow} {row p : PublicationRow}
    (hp : p ∈ upsertPub pubs row) (hdv : p.dataset_version = row.dataset_version) :
    p = row ∨ (p ∈ pubs ∧
      (pubs.any (fun q => q.dataset_version = row.dataset_version)) = false) := by
  rw [upsertPub] at hp
  split_ifs at hp with hany
  · obtain ⟨q, hq, hrep⟩ := List.mem_map.1 hp
    by_cases hqdv : q.dataset_version = row.dataset_version
    · rw [if_pos hqdv] at hrep
      exact Or.inl hrep.symm
    · rw [if_neg hqdv] at hrep
      subst hrep
      exact absurd hdv hqdv
  · rcases List.mem_append.1 hp with hq | hq
    · refine Or.inr ⟨hq, ?_⟩
      cases hb : pubs.any (fun q => q.dataset_version = row.dataset_version)
      · rfl
      · exact absurd hb hany
    · simp only [List.mem_singleton] at hq
      exact Or.inl hq

theorem upsertPub_any_dv (pubs : List PublicationRow) (row : PublicationRow) :
    (upsertPub pubs row).any (fun p => p.dataset_version = row.dataset_version) = true := by
  rw [upsertPub]
  split_ifs with hany
  · rw [List.any_eq_true] at hany ⊢
    obtain ⟨q, hq, hqdv⟩ := hany
    exact ⟨row, List.mem_map.2 ⟨q, hq, by simp [of_decide_eq_true hqdv]⟩, by simp⟩
  · rw [List.any_eq_true]
    exact ⟨row, List.mem_append_right _ (List.mem_singleton.2 rfl), by simp⟩

theorem upsertPub_upsertPub {pubs : List PublicationRow} {row1 row2 : PublicationRow}
    (hdv : row1.dataset_version = row2.dataset_version)
    (hagree : { row1 with
        published_at_utc := row2.published_at_utc
        publish_txid := row2.publish_txid } = row2) :
    upsertPub (upsertPub pubs row1) row2 =
      (upsertPub pubs row1).map (fun p =>
        if p.dataset_version = row2.dataset_version then
          { p with
              published_at_utc := row2.published_at_utc
              publish_txid := row2.publish_txid }
        else p) := by
  have hany2 : (upsertPub pubs row1).any
      (fun p => p.dataset_version = row2.dataset_version) = true := by
    rw [← hdv]
    exact upsertPub_any_dv pubs row1
  rw [upsertPub, if_pos hany2]
  refine List.map_congr_left fun p hp => ?_
  by_cases hpdv : p.dataset_version = row2.dataset_version
  · rw [if_pos hpdv, if_pos hpdv]
    rcases upsertPub_mem_dv hp (hdv ▸ hpdv) with rfl | ⟨hpmem, hanyf⟩
    · exact hagree.symm
    · have : p.dataset_version = row1.dataset_version := hdv ▸ hpdv
      rw [List.any_eq_false] at hanyf
      exact absurd (by simpa using this) (hanyf p hpmem)
  · rw [if_neg hpdv, if_neg hpdv]

end Postcodes

namespace Postcodes

theorem publish_build_repeat {db db1 : PublishDb} {rid actor : String}
    {now1 tx1 now2 tx2 : Nat} {res1 : PublishResult}
    (h1 : publish_build db rid actor now1 tx1 = .ok (db1, res1)) :
    publish_build db1 rid actor now2 tx2 =
      .ok
        ({ db1 with
            dataset_publication := db1.dataset_publication.map (fun p =>
              if p.dataset_version = res1.dataset_version then
                { p with published_at_utc := now2, publish_txid := tx2 }
              else p) },
          ⟨rid, res1.dataset_version, "published"⟩) := by
  obtain ⟨run, hfind, hstat, htab1, htab2, hdb1, hres1⟩ := publish_build_ok_inv h1
  subst hdb1
  subst hres1
  have hrid : run.build_run_id = rid := by
    have := List.find?_some hfind
    simpa using this
  have hpred : (fun r : BuildRunRow => decide (r.build_run_id = rid)) ∘
      (fun r : BuildRunRow =>
        if r.build_run_id = rid then
          { r with
              status := "published"
              current_pass := "published"
              finished_at_utc := some (r.finished_at_utc.getD now1) }
        else r) =
      (fun r : BuildRunRow => decide (r.build_run_id = rid)) := by
    funext r
    by_cases h0 : r.build_run_id = rid <;> simp [h0]
  have hfind1 : (db.build_run.map (fun r =>
      if r.build_run_id = rid then
        { r with
            status := "published"
            current_pass := "published"
            finished_at_utc := some (r.finished_at_utc.getD now1) }
      else r)).find? (fun r => r.build_run_id = rid) =
      some { run with
          status := "published"
          current_pass := "published"
          finished_at_utc := some (run.finished_at_utc.getD now1) } := by
    rw [List.find?_map, hpred, hfind]
    simp [hrid]
  simp only [publish_build]
  rw [hfind1]
  dsimp only
  rw [if_neg (by simp), if_neg (not_not_intro ⟨htab1, htab2⟩)]
  have hrun_fix : ∀ r ∈ db.build_run.map (fun r =>
      if r.build_run_id = rid then
        { r with
            status := "published"
            current_pass := "published"
            finished_at_utc := some (r.finished_at_utc.getD now1) }
      else r),
      (if r.build_run_id = rid then
        { r with
            status := "published"
            current_pass := "published"
            finished_at_utc := some (r.finished_at_utc.getD now2) }
      else r) = r := by
    intro r hr
    obtain ⟨r0, hr0, rfl⟩ := List.mem_map.1 hr
    by_cases h0 : r0.build_run_id = rid
    · simp [h0]
    · simp [h0]
  have hbun_fix : ∀ bs ∈ db.build_bundle_status.map (fun bs =>
      if bs.1 = run.bundle_id then (bs.1, "published") else bs),
      (if bs.1 = run.bundle_id then (bs.1, "published") else bs) = bs := by
    intro bs hbs
    obtain ⟨b0, hb0, rfl⟩ := List.mem_map.1 hbs
    by_cases h0 : b0.1 = run.bundle_id
    · simp [h0]
    · simp [h0]
  have hpub := @upsertPub_upsertPub
    db.dataset_publication
    ⟨run.dataset_version, rid, now1, actor,
      "api.postcode_lookup__" ++ _safe_version_suffix run.dataset_version,
      "api.postcode_street_lookup__" ++ _safe_version_suffix run.dataset_version, tx1⟩
    ⟨run.dataset_version, rid, now2, actor,
      "api.postcode_lookup__" ++ _safe_version_suffix run.dataset_version,
      "api.postcode_street_lookup__" ++ _safe_version_suffix run.dataset_version, tx2⟩
    rfl rfl
  rw [List.map_congr_left hrun_fix, List.map_id', List.map_congr_left hbun_fix,
    List.map_id', hpub]

end Postcodes

namespace Postcodes

/-- C9: `publish_build` succeeds only when the run exists with status `built`
or `published` and both versioned projection tables are present; a repeated
publish for the same run succeeds and changes nothing except the published
timestamp and txid of the (upserted, not duplicated) `dataset_publication`
row, with the aliases pointing at the same versioned tables. -/
theorem publish_build_validated_idempotent (db : PublishDb) (rid actor : String)
    (now1 tx1 now2 tx2 : Nat) :
    (∀ db' res, publish_build db rid actor now1 tx1 = .ok (db', res) →
      ∃ run, db.build_run.find? (fun r => r.build_run_id = rid) = some run ∧
        (run.status = "built" ∨ run.status = "published") ∧
        ("api.postcode_lookup__" ++ _safe_version_suffix run.dataset_version) ∈
          db.api_tables ∧
        ("api.postcode_street_lookup__" ++ _safe_version_suffix run.dataset_version) ∈
          db.api_tables) ∧
    (∀ db1 res1, publish_build db rid actor now1 tx1 = .ok (db1, res1) →
      ∃ db2, publish_build db1 rid actor now2 tx2 =
          .ok (db2, ⟨rid, res1.dataset_version, "published"⟩) ∧
        db2.build_run = db1.build_run ∧
        db2.build_bundle_status = db1.build_bundle_status ∧
        db2.api_tables = db1.api_tables ∧
        db2.lookup_alias = db1.lookup_alias ∧
        db2.street_alias = db1.street_alias ∧
        db2.dataset_publication = db1.dataset_publication.map (fun p =>
          if p.dataset_version = res1.dataset_version then
            { p with published_at_utc := now2, publish_txid := tx2 }
          else p) ∧
        db2.dataset_publication.length = db1.dataset_publication.length) := by
  constructor
  · intro db' res h
    obtain ⟨run, hfind, hstat, ht1, ht2, _, _⟩ := publish_build_ok_inv h
    exact ⟨run, hfind, hstat, ht1, ht2⟩
  · intro db1 res1 h1
    exact ⟨_, publish_build_repeat h1, rfl, rfl, rfl, rfl, rfl, rfl,
      List.length_map _ _⟩

/-- Witness for C9 on the concrete built run `run1`. -/
theorem publish_build_validated_idempotent_witness :
    (∃ run, exPubDb.build_run.find? (fun r => r.build_run_id = "run1") = some run ∧
      (run.status = "built" ∨ run.status = "published") ∧
      ("api.postcode_lookup__" ++ _safe_version_suffix run.dataset_version) ∈
        exPubDb.api_tables ∧
      ("api.postcode_street_lookup__" ++ _safe_version_suffix run.dataset_version) ∈
        exPubDb.api_tables) ∧
    (∃ db2, publish_build exPubDb1 "run1" "alice" 200 9 =
        .ok (db2, ⟨"run1", "v3_abc", "published"⟩) ∧
      db2.build_run = exPubDb1.build_run ∧
      db2.build_bundle_status = exPubDb1.build_bundle_status ∧
      db2.api_tables = exPubDb1.api_tables ∧
      db2.lookup_alias = exPubDb1.lookup_alias ∧
      db2.street_alias = exPubDb1.street_alias ∧
      db2.dataset_publication = exPubDb1.dataset_publication.map (fun p =>
        if p.dataset_version = "v3_abc" then
          { p with published_at_utc := 200, publish_txid := 9 }
        else p) ∧
      db2.dataset_publication.length = exPubDb1.dataset_publication.length) :=
  ⟨(publish_build_validated_idempotent exPubDb "run1" "alice" 100 7 200 9).1
      exPubDb1 ⟨"run1", "v3_abc", "published"⟩ (by decide),
   (publish_build_validated_idempotent exPubDb "run1" "alice" 100 7 200 9).2
      exPubDb1 ⟨"run1", "v3_abc", "published"⟩ (by decide)⟩

end Postcodes
